import Mathlib

/-!
# Agent-based epidemic simulator (`labs/1-basic/borrar.c`)

Shallow embedding of the simulator and proofs of its specified properties.

Modelling conventions.
* `float` values are exact rationals (`ℚ`); `fmaxf`/`fminf` are `max`/`min`.
* `int` values are unbounded integers (`Int`); no counter of the program comes
  near the 32-bit range within the simulated horizon.
* `rand()` is a fixed stream `draws : Nat → Nat` of generator outputs together
  with a cursor `pos : Nat`; every call reads `draws pos` and advances the cursor.
* The population `Agent* agents` is a `List Agent`; the macro `N` is its length
  (the source fixes `N = 1024`).  A `for (i = 0; i < n; i++)` loop is a left fold
  over `List.range n`, in-place writes `agents[i].f = v` are `List.set`.
* `sqrtf` has no rational counterpart: the only use of `distance` in the rules is
  the test `distance(a, b) <= R`, embedded as `dx*dx + dy*dy ≤ R*R` (`R ≥ 0`).
  The function `distance` itself is embedded with the rounding of the `float`
  operations and `sqrtf` as parameters (`distance fl sqrtfl`), and Rule 1 is also
  given with the outcome of its distance test as a parameter (`applyRule1By`).
* The `float` literals of `initializeAgents` are the exact values of the `float`
  nearest to the decimal (`f0_02` for `0.02f`, ...); the roundings of the arithmetic
  of `randomFloat` and of Rule 2 are not modelled.
-/

namespace Epidemic

/-! ## Simulation parameters -/

/-- Maximum simulation days (`#define D_MAX 30`). -/
def D_MAX : Nat := 30

/-- Maximum movements per day (`#define M_MAX 10`). -/
def M_MAX : Nat := 10

/-- Maximum radius for local movements (`#define L_MAX 5.0f`). -/
def L_MAX : ℚ := 5

/-- Contagion limit distance (`#define R 1.0f`). -/
def R : ℚ := 1

/-- Simulation area width (`#define P 500.0f`). -/
def P : ℚ := 500

/-- Simulation area height (`#define Q 500.0f`). -/
def Q : ℚ := 500

/-- Largest value returned by `rand()` (`RAND_MAX` of `<stdlib.h>`, glibc value). -/
def RAND_MAX : Nat := 2147483647

/-! ## Agent structure -/

/-- The `Agent` record of the source. -/
structure Agent where
  p_con : ℚ
  p_ext : ℚ
  p_fat : ℚ
  p_mov : ℚ
  p_smo : ℚ
  t_inc : Int
  t_rec : Int
  status : Int
  x : ℚ
  y : ℚ
deriving DecidableEq

/-! ## Float literals -/

/-- The `float` value of the literal `0.02f` (`0.0199999995...`, below `0.02`). -/
def f0_02 : ℚ := 5368709 / 268435456

/-- The `float` value of the literal `0.03f` (`0.0299999993...`, below `0.03`). -/
def f0_03 : ℚ := 16106127 / 536870912

/-- The `float` value of the literal `0.007f` (`0.0070000002...`, above `0.007`). -/
def f0_007 : ℚ := 7516193 / 1073741824

/-- The `float` value of the literal `0.07f` (`0.0700000003...`, above `0.07`). -/
def f0_07 : ℚ := 9395241 / 134217728

/-- The `float` value of the literal `0.3f` (`0.3000000119...`, above `0.3`). -/
def f0_3 : ℚ := 5033165 / 16777216

/-- The `float` value of the literal `0.5f` (exact). -/
def f0_5 : ℚ := 1 / 2

/-- The `float` value of the literal `0.7f` (`0.6999999880...`, below `0.7`). -/
def f0_7 : ℚ := 11744051 / 16777216

/-- The `float` value of the literal `0.9f` (`0.8999999761...`, below `0.9`). -/
def f0_9 : ℚ := 7549747 / 8388608

/-- The `float` value of the literal `6.99f` (`6.9899997711...`, below `6.99`). -/
def f6_99 : ℚ := 3664773 / 524288

/-! ## Random source -/

/-- The function `randomFloat(min, max)`: `min + (max - min) * ((float)rand() / RAND_MAX)`.
Returns the value and the advanced cursor of the generator stream. -/
def randomFloat (draws : Nat → Nat) (min max : ℚ) (pos : Nat) : ℚ × Nat :=
  (min + (max - min) * ((draws pos : ℚ) / (RAND_MAX : ℚ)), pos + 1)

/-- The `(int)` cast of a `float`: truncation toward zero. -/
def truncToInt (q : ℚ) : Int :=
  if 0 ≤ q then ⌊q⌋ else ⌈q⌉

/-- A `for (i = 0; i < n; i++) body` loop over a state `σ`. -/
def forLoop {σ : Type} (n : Nat) (body : σ → Nat → σ) (init : σ) : σ :=
  (List.range n).foldl body init

/-! ## Initialisation -/

/-- Body of the loop of `initializeAgents` for index `i`. -/
def initializeAgentsBody (draws : Nat → Nat) (st : List Agent × Nat) (i : Nat) :
    List Agent × Nat :=
  let agents := st.1
  let r1 := randomFloat draws f0_02 f0_03 st.2
  let r2 := randomFloat draws f0_02 f0_03 r1.2
  let r3 := randomFloat draws f0_007 f0_07 r2.2
  let r4 := randomFloat draws f0_3 f0_5 r3.2
  let r5 := randomFloat draws f0_7 f0_9 r4.2
  let r6 := randomFloat draws 5 f6_99 r5.2
  let r7 := randomFloat draws 0 P r6.2
  let r8 := randomFloat draws 0 Q r7.2
  (agents.set i
    { p_con := r1.1, p_ext := r2.1, p_fat := r3.1, p_mov := r4.1, p_smo := r5.1,
      t_inc := truncToInt r6.1, t_rec := 14, status := 0, x := r7.1, y := r8.1 },
   r8.2)

/-- The function `initializeAgents`: it overwrites every slot of the (uninitialised) array. -/
def initializeAgents (draws : Nat → Nat) (agents : List Agent) (pos : Nat) :
    List Agent × Nat :=
  forLoop agents.length (initializeAgentsBody draws) (agents, pos)

/-! ## Distance -/

/-- Radicand of `distance(a, b)`: `dx*dx + dy*dy`. -/
def distanceSq (a b : Agent) : ℚ :=
  let dx := a.x - b.x
  let dy := a.y - b.y
  dx * dx + dy * dy

/-- The test `distance(a, b) <= R` of Rule 1. -/
def withinR (a b : Agent) : Bool :=
  decide (distanceSq a b ≤ R * R)

/-- The function `distance(a, b)` as the machine computes it: `dx = a.x - b.x`,
`dy = a.y - b.y`, `sqrtf(dx*dx + dy*dy)`, where the result of every subtraction,
multiplication and addition is rounded to a `float` by `fl` and `sqrtfl` is the
function `sqrtf`.  With `fl` the identity the radicand is `distanceSq a b`. -/
def distance (fl sqrtfl : ℚ → ℚ) (a b : Agent) : ℚ :=
  let dx := fl (a.x - b.x)
  let dy := fl (a.y - b.y)
  sqrtfl (fl (fl (dx * dx) + fl (dy * dy)))

/-- The test `distance(a, b) <= R` of Rule 1 as the machine computes it, for the
rounding `fl` and the square root `sqrtfl`. -/
def withinFloat (fl sqrtfl : ℚ → ℚ) (a b : Agent) : Bool :=
  decide (distance fl sqrtfl a b ≤ R)

/-! ## Rule 1: contagion -/

/-- Inner loop of `applyRule1`: scans `agents[j], agents[j+1], ...` for agent `i`
and returns `alpha`; stops (`break`) at the first infected agent within `R`. -/
def scanNeighbours (a : Agent) (i : Nat) : Nat → List Agent → Int
  | _, [] => 0
  | j, b :: rest =>
    if i ≠ j ∧ b.status > 0 then
      if withinR a b then 1 else scanNeighbours a i (j + 1) rest
    else scanNeighbours a i (j + 1) rest

/-- Body of the outer loop of `applyRule1` for index `i`. -/
def applyRule1Body (draws : Nat → Nat) (st : List Agent × Nat) (i : Nat) :
    List Agent × Nat :=
  match st.1[i]? with
  | none => st
  | some a =>
    if a.status = 0 then
      let alpha := scanNeighbours a i 0 st.1
      if alpha = 1 then
        let r := randomFloat draws 0 1 st.2
        if r.1 ≤ a.p_con then (st.1.set i { a with status := 1 }, r.2)
        else (st.1, r.2)
      else st
    else st

/-- Rule 1, `applyRule1`: one pass of the contagion loop over `agents[0..N-1]`. -/
def applyRule1 (draws : Nat → Nat) (agents : List Agent) (pos : Nat) : List Agent × Nat :=
  forLoop agents.length (applyRule1Body draws) (agents, pos)

/-- Inner loop of `applyRule1` with the outcome of the test
`distance(agents[i], agents[j]) <= R` supplied by `within`: the test as the machine
computes it is `withinFloat fl sqrtfl`, the exact test is `withinR`. -/
def scanNeighboursBy (within : Agent → Agent → Bool) (a : Agent) (i : Nat) :
    Nat → List Agent → Int
  | _, [] => 0
  | j, b :: rest =>
    if i ≠ j ∧ b.status > 0 then
      if within a b then 1 else scanNeighboursBy within a i (j + 1) rest
    else scanNeighboursBy within a i (j + 1) rest

/-- Body of the outer loop of `applyRule1` for index `i`, with the distance test
supplied by `within`. -/
def applyRule1BodyBy (within : Agent → Agent → Bool) (draws : Nat → Nat)
    (st : List Agent × Nat) (i : Nat) : List Agent × Nat :=
  match st.1[i]? with
  | none => st
  | some a =>
    if a.status = 0 then
      let alpha := scanNeighboursBy within a i 0 st.1
      if alpha = 1 then
        let r := randomFloat draws 0 1 st.2
        if r.1 ≤ a.p_con then (st.1.set i { a with status := 1 }, r.2)
        else (st.1, r.2)
      else st
    else st

/-- Rule 1, `applyRule1`, with the distance test supplied by `within`. -/
def applyRule1By (within : Agent → Agent → Bool) (draws : Nat → Nat) (agents : List Agent)
    (pos : Nat) : List Agent × Nat :=
  forLoop agents.length (applyRule1BodyBy within draws) (agents, pos)

/-! ## Rule 2: mobility -/

/-- Body of the loop of `applyRule2` for index `i`. -/
def applyRule2Body (draws : Nat → Nat) (st : List Agent × Nat) (i : Nat) :
    List Agent × Nat :=
  match st.1[i]? with
  | none => st
  | some a =>
    if a.status = -2 then st
    else
      let r1 := randomFloat draws 0 1 st.2
      if r1.1 ≤ a.p_mov then
        let r2 := randomFloat draws 0 1 r1.2
        if r2.1 ≤ a.p_smo then
          let r3 := randomFloat draws 0 1 r2.2
          let movX := (2 * r3.1 - 1) * L_MAX
          let r4 := randomFloat draws 0 1 r3.2
          let movY := (2 * r4.1 - 1) * L_MAX
          (st.1.set i { a with x := max 0 (min P (a.x + movX)),
                               y := max 0 (min Q (a.y + movY)) }, r4.2)
        else
          let r3 := randomFloat draws 0 P r2.2
          let r4 := randomFloat draws 0 Q r3.2
          (st.1.set i { a with x := r3.1, y := r4.1 }, r4.2)
      else (st.1, r1.2)

/-- Rule 2, `applyRule2`: one pass of the mobility loop over `agents[0..N-1]`. -/
def applyRule2 (draws : Nat → Nat) (agents : List Agent) (pos : Nat) : List Agent × Nat :=
  forLoop agents.length (applyRule2Body draws) (agents, pos)

/-! ## Rule 3: external contagion -/

/-- Body of the loop of `applyRule3` for index `i`. -/
def applyRule3Body (draws : Nat → Nat) (st : List Agent × Nat) (i : Nat) :
    List Agent × Nat :=
  match st.1[i]? with
  | none => st
  | some a =>
    if a.status = 0 then
      let r := randomFloat draws 0 1 st.2
      if r.1 ≤ a.p_ext then (st.1.set i { a with status := 1 }, r.2)
      else (st.1, r.2)
    else st

/-- Rule 3, `applyRule3`: one pass of the external contagion loop. -/
def applyRule3 (draws : Nat → Nat) (agents : List Agent) (pos : Nat) : List Agent × Nat :=
  forLoop agents.length (applyRule3Body draws) (agents, pos)

/-! ## Rule 4: incubation, quarantine, recovery -/

/-- Body of the loop of `applyRule4` for index `i` (the rule draws nothing). -/
def applyRule4Body (agents : List Agent) (i : Nat) : List Agent :=
  match agents[i]? with
  | none => agents
  | some a =>
    if a.status > 0 then
      let a1 := { a with t_inc := a.t_inc - 1 }
      if a1.t_inc ≤ 0 then agents.set i { a1 with status := -1 }
      else agents.set i a1
    else if a.status = -1 then
      let a1 := { a with t_rec := a.t_rec - 1 }
      if a1.t_rec ≤ 0 then agents.set i { a1 with status := 0, t_rec := 14 }
      else agents.set i a1
    else agents

/-- Rule 4, `applyRule4`: one pass of the progression loop. -/
def applyRule4 (agents : List Agent) : List Agent :=
  forLoop agents.length applyRule4Body agents

/-! ## Rule 5: fatal cases -/

/-- Body of the loop of `applyRule5` for index `i`. -/
def applyRule5Body (draws : Nat → Nat) (st : List Agent × Nat) (i : Nat) :
    List Agent × Nat :=
  match st.1[i]? with
  | none => st
  | some a =>
    if a.status = -1 then
      let r := randomFloat draws 0 1 st.2
      if r.1 ≤ a.p_fat then (st.1.set i { a with status := -2 }, r.2)
      else (st.1, r.2)
    else st

/-- Rule 5, `applyRule5`: one pass of the fatality loop. -/
def applyRule5 (draws : Nat → Nat) (agents : List Agent) (pos : Nat) : List Agent × Nat :=
  forLoop agents.length (applyRule5Body draws) (agents, pos)

/-! ## Status counts -/

/-- The three counters of `countAgentsByStatus`: infected, quarantined, deceased. -/
structure Counts where
  infected : Int
  quarantined : Int
  deceased : Int
deriving DecidableEq

/-- Body of the loop of `countAgentsByStatus` for one agent. -/
def countAgentsBody (c : Counts) (a : Agent) : Counts :=
  if a.status = 1 then { c with infected := c.infected + 1 }
  else if a.status = -1 then { c with quarantined := c.quarantined + 1 }
  else if a.status = -2 then { c with deceased := c.deceased + 1 }
  else c

/-- The function `countAgentsByStatus`: one read-only pass over `agents[0..N-1]`. -/
def countAgentsByStatus (agents : List Agent) : Counts :=
  agents.foldl countAgentsBody { infected := 0, quarantined := 0, deceased := 0 }

/-! ## Simulation driver -/

/-- The statistics variables of `runSimulation`. -/
structure Stats where
  daily_infected : List Int
  daily_recovered : List Int
  daily_deaths : List Int
  cumulative_infected : List Int
  cumulative_recovered : List Int
  cumulative_deaths : List Int
  day_first_infected : Int
  day_half_infected : Int
  day_all_infected : Int
  day_first_recovered : Int
  day_half_recovered : Int
  day_all_recovered : Int
  day_first_death : Int
  day_half_deaths : Int
  day_all_deaths : Int
  prev_total_infected : Int
  prev_total_recovered : Int
  prev_total_deceased : Int
deriving DecidableEq

/-- The state of `runSimulation`: population, generator cursor, statistics. -/
structure Sim where
  agents : List Agent
  pos : Nat
  stats : Stats

/-- The statistics as declared before the day loop: arrays of `days` zeros,
milestones at the sentinel `-1`, previous totals `0`. -/
def initStats (days : Nat) : Stats :=
  { daily_infected := List.replicate days 0
    daily_recovered := List.replicate days 0
    daily_deaths := List.replicate days 0
    cumulative_infected := List.replicate days 0
    cumulative_recovered := List.replicate days 0
    cumulative_deaths := List.replicate days 0
    day_first_infected := -1
    day_half_infected := -1
    day_all_infected := -1
    day_first_recovered := -1
    day_half_recovered := -1
    day_all_recovered := -1
    day_first_death := -1
    day_half_deaths := -1
    day_all_deaths := -1
    prev_total_infected := 0
    prev_total_recovered := 0
    prev_total_deceased := 0 }

/-- A milestone update `if (cond && m == -1) m = day;`. -/
def recordMilestone (cond : Bool) (m : Int) (day : Nat) : Int :=
  if cond ∧ m = -1 then (day : Int) else m

/-- The statistics part of one iteration of the day loop (source lines 231-261),
for a population of `n` agents and the counts `c` of the day. -/
def updateStats (n : Nat) (s : Stats) (c : Counts) (day : Nat) : Stats :=
  let total_infected := c.infected + c.quarantined + c.deceased
    + s.cumulative_recovered.getD (if day > 0 then day - 1 else 0) 0
  let total_recovered := if day > 0 then s.cumulative_recovered.getD (day - 1) 0 else 0
  let total_deceased := c.deceased
  { daily_infected := s.daily_infected.set day (total_infected - s.prev_total_infected)
    daily_recovered := s.daily_recovered.set day (total_recovered - s.prev_total_recovered)
    daily_deaths := s.daily_deaths.set day (total_deceased - s.prev_total_deceased)
    cumulative_infected := s.cumulative_infected.set day total_infected
    cumulative_recovered := s.cumulative_recovered.set day total_recovered
    cumulative_deaths := s.cumulative_deaths.set day total_deceased
    prev_total_infected := total_infected
    prev_total_recovered := total_recovered
    prev_total_deceased := total_deceased
    day_first_infected := recordMilestone (decide (total_infected > 0)) s.day_first_infected day
    day_half_infected :=
      recordMilestone (decide (total_infected ≥ ((n / 2 : Nat) : Int))) s.day_half_infected day
    day_all_infected :=
      recordMilestone (decide (total_infected ≥ (n : Int))) s.day_all_infected day
    day_first_recovered :=
      recordMilestone (decide (total_recovered > 0)) s.day_first_recovered day
    day_half_recovered :=
      recordMilestone (decide (total_recovered ≥ ((n / 2 : Nat) : Int))) s.day_half_recovered day
    day_all_recovered :=
      recordMilestone (decide (total_recovered ≥ (n : Int))) s.day_all_recovered day
    day_first_death := recordMilestone (decide (total_deceased > 0)) s.day_first_death day
    day_half_deaths :=
      recordMilestone (decide (total_deceased ≥ ((n / 2 : Nat) : Int))) s.day_half_deaths day
    day_all_deaths :=
      recordMilestone (decide (total_deceased ≥ (n : Int))) s.day_all_deaths day }

/-- One iteration of the intraday loop: `applyRule1` then `applyRule2`. -/
def movementBody (draws : Nat → Nat) (st : List Agent × Nat) (_mov : Nat) : List Agent × Nat :=
  let s1 := applyRule1 draws st.1 st.2
  applyRule2 draws s1.1 s1.2

/-- The rule pipeline of one simulated day (source lines 216-224). -/
def dailyCycle (draws : Nat → Nat) (movs : Nat) (st : List Agent × Nat) : List Agent × Nat :=
  let s1 := forLoop movs (movementBody draws) st
  let s3 := applyRule3 draws s1.1 s1.2
  let a4 := applyRule4 s3.1
  applyRule5 draws a4 s3.2

/-- Body of the day loop of `runSimulation`. -/
def dayBody (draws : Nat → Nat) (movs : Nat) (st : Sim) (day : Nat) : Sim :=
  let s := dailyCycle draws movs (st.agents, st.pos)
  let c := countAgentsByStatus s.1
  { agents := s.1, pos := s.2, stats := updateStats s.1.length st.stats c day }

/-- The state of `runSimulation` when the day loop is entered: `mem` is the
content of the freshly allocated array. -/
def startSim (draws : Nat → Nat) (days : Nat) (mem : List Agent) (pos : Nat) : Sim :=
  let s := initializeAgents draws mem pos
  { agents := s.1, pos := s.2, stats := initStats days }

/-- The first `k` iterations of the day loop, for an horizon of `days` days. -/
def simulateDays (draws : Nat → Nat) (days movs k : Nat) (mem : List Agent) (pos : Nat) : Sim :=
  forLoop k (dayBody draws movs) (startSim draws days mem pos)

/-- The function `runSimulation`, up to the report: `D_MAX` days of `M_MAX` movements. -/
def runSimulation (draws : Nat → Nat) (mem : List Agent) (pos : Nat) : Sim :=
  simulateDays draws D_MAX M_MAX D_MAX mem pos

/-- The milestone as printed by the report: `m != -1 ? m + 1 : -1`. -/
def reportDay (m : Int) : Int :=
  if m ≠ -1 then m + 1 else -1

/-! ## Specification predicates -/

/-- The four status values: susceptible, infected, quarantined, deceased. -/
def ValidStatus (s : Int) : Prop :=
  s = 0 ∨ s = 1 ∨ s = -1 ∨ s = -2

/-- Every agent of the population carries one of the four status values. -/
def AllValid (agents : List Agent) : Prop :=
  ∀ a ∈ agents, ValidStatus a.status

/-- Number of agents with status `0`. -/
def susceptibleCount (agents : List Agent) : Int :=
  ((agents.countP (fun a => decide (a.status = 0)) : Nat) : Int)

/-- Population conservation for a population of `n` agents: the size is `n`, every
status is valid, and the three counts plus the susceptible agents add up to `n`. -/
def Conserved (n : Nat) (agents : List Agent) : Prop :=
  agents.length = n ∧ AllValid agents ∧
    (countAgentsByStatus agents).infected + (countAgentsByStatus agents).quarantined
      + (countAgentsByStatus agents).deceased + susceptibleCount agents = (n : Int)

/-- Position inside the simulation area `[0, P] × [0, Q]`. -/
def InBounds (a : Agent) : Prop :=
  0 ≤ a.x ∧ a.x ≤ P ∧ 0 ≤ a.y ∧ a.y ≤ Q

/-- Every output of the generator lies in `[0, RAND_MAX]`, so that every draw
`(float)rand() / RAND_MAX` is a unit fraction in `[0, 1]`. -/
def UnitDraws (draws : Nat → Nat) : Prop :=
  ∀ k, draws k ≤ RAND_MAX

/-- One pass of a loop body at index `j` took the population `l` to `l1`: either
nothing was written or `agents[j]` was replaced by an agent related to it by `rel`. -/
abbrev Step (rel : Agent → Agent → Prop) (l l1 : List Agent) (j : Nat) : Prop :=
  l1 = l ∨ ∃ a b, l[j]? = some a ∧ rel a b ∧ l1 = l.set j b

/-- The population `l1` is `l` after finitely many per-agent transitions of `rel`. -/
abbrev Evolves (rel : Agent → Agent → Prop) (l l1 : List Agent) : Prop :=
  l1.length = l.length ∧
    ∀ (i : Nat) (a : Agent), l[i]? = some a → ∃ b, l1[i]? = some b ∧ Relation.ReflTransGen rel a b

/-- Transition of Rules 1 and 3: a susceptible agent becomes infected. -/
def infectRel (a b : Agent) : Prop :=
  a.status = 0 ∧ b = { a with status := 1 }

/-- Transition of Rule 2: a non-deceased agent changes position only; under unit
draws the new position is in the simulation area. -/
def moveRel (draws : Nat → Nat) (a b : Agent) : Prop :=
  a.status ≠ -2 ∧ ∃ x1 y1, b = { a with x := x1, y := y1 } ∧
    (UnitDraws draws → 0 ≤ x1 ∧ x1 ≤ P ∧ 0 ≤ y1 ∧ y1 ≤ Q)

/-- Transition of Rule 4: incubation countdown or quarantine countdown. -/
def progressRel (a b : Agent) : Prop :=
  (a.status > 0 ∧
      b = { a with t_inc := a.t_inc - 1, status := if a.t_inc - 1 ≤ 0 then -1 else a.status }) ∨
    (a.status = -1 ∧
      b = if a.t_rec - 1 ≤ 0 then { a with status := 0, t_rec := 14 }
          else { a with t_rec := a.t_rec - 1 })

/-- Transition of Rule 5: a quarantined agent dies. -/
def dieRel (a b : Agent) : Prop :=
  a.status = -1 ∧ b = { a with status := -2 }

/-! ## Closed forms of the statistics -/

/-- The counts of day `d` of a run: `countAgentsByStatus` on the population as it
stands after the rule pipeline of day `d`. -/
def dayCounts (draws : Nat → Nat) (days movs : Nat) (mem : List Agent) (pos : Nat)
    (d : Nat) : Counts :=
  countAgentsByStatus (simulateDays draws days movs (d + 1) mem pos).agents

/-- The statistics after `k` days as a function of the daily counts `c`. -/
def statsAfter (n days : Nat) (c : Nat → Counts) (k : Nat) : Stats :=
  forLoop k (fun s d => updateStats n s (c d) d) (initStats days)

/-- An array of `days` entries whose first `k` entries are `f 0, .., f (k-1)` and whose
other entries are still `0`. -/
def seriesOf (days k : Nat) (f : Nat → Int) : List Int :=
  (List.range days).map (fun d => if d < k then f d else 0)

/-- The value of `f` on the previous day, `0` on day `0`. -/
def prevOf (f : Nat → Int) (d : Nat) : Int :=
  if d = 0 then 0 else f (d - 1)

/-- Agents in an infected-lineage state on day `d`: infected + quarantined + deceased. -/
def everInfected (c : Nat → Counts) (d : Nat) : Int :=
  (c d).infected + (c d).quarantined + (c d).deceased

/-- Threshold test `v > 0`. -/
def meetsFirst (v : Int) : Bool :=
  decide (v > 0)

/-- Threshold test `v >= N/2` (integer division). -/
def meetsHalf (n : Nat) (v : Int) : Bool :=
  decide (v ≥ ((n / 2 : Nat) : Int))

/-- Threshold test `v >= N`. -/
def meetsAll (n : Nat) (v : Int) : Bool :=
  decide (v ≥ (n : Int))

/-- The milestone `m` is the first-crossing day of `series` within the first `horizon`
days: either `m` is the sentinel `-1`, reported as `-1`, and no day meets the
threshold; or `m` is the least day index that meets it, reported as `m + 1`. -/
def FirstCrossing (meets : Int → Bool) (series : List Int) (horizon : Nat) (m : Int) : Prop :=
  (m = -1 ∧ reportDay m = -1 ∧ ∀ d : Nat, d < horizon → meets (series.getD d 0) = false) ∨
  (∃ d : Nat, m = (d : Int) ∧ reportDay m = (d : Int) + 1 ∧ d < horizon ∧
    meets (series.getD d 0) = true ∧ ∀ j : Nat, j < d → meets (series.getD j 0) = false)

/-! ## Per-agent views and reference variants -/

/-- Per-agent effect of one iteration of the loop of `applyRule4`. -/
def progressAgent (a : Agent) : Agent :=
  if a.status > 0 then
    let a1 := { a with t_inc := a.t_inc - 1 }
    if a1.t_inc ≤ 0 then { a1 with status := -1 } else a1
  else if a.status = -1 then
    let a1 := { a with t_rec := a.t_rec - 1 }
    if a1.t_rec ≤ 0 then { a1 with status := 0, t_rec := 14 } else a1
  else a

/-- The agent written by one iteration of the loop of `initializeAgents` when the
generator cursor is `pos` (eight consecutive draws). -/
def freshAgent (draws : Nat → Nat) (pos : Nat) : Agent :=
  { p_con := (randomFloat draws f0_02 f0_03 pos).1
    p_ext := (randomFloat draws f0_02 f0_03 (pos + 1)).1
    p_fat := (randomFloat draws f0_007 f0_07 (pos + 2)).1
    p_mov := (randomFloat draws f0_3 f0_5 (pos + 3)).1
    p_smo := (randomFloat draws f0_7 f0_9 (pos + 4)).1
    t_inc := truncToInt (randomFloat draws 5 f6_99 (pos + 5)).1
    t_rec := 14
    status := 0
    x := (randomFloat draws 0 P (pos + 6)).1
    y := (randomFloat draws 0 Q (pos + 7)).1 }

/-- The postcondition of `initializeAgents` for one agent, with the bounds the
program passes: the `float` values of the literals `0.02f`, `0.03f`, `0.007f`,
`0.07f`, `0.3f`, `0.5f`, `0.7f`, `0.9f`; status `0`, recovery time `14`, incubation
time `5` or `6`, position in the simulation area. -/
def InitRanges (a : Agent) : Prop :=
  a.status = 0 ∧ a.t_rec = 14 ∧ (a.t_inc = 5 ∨ a.t_inc = 6) ∧
  (f0_02 ≤ a.p_con ∧ a.p_con ≤ f0_03) ∧ (f0_02 ≤ a.p_ext ∧ a.p_ext ≤ f0_03) ∧
  (f0_007 ≤ a.p_fat ∧ a.p_fat ≤ f0_07) ∧ (f0_3 ≤ a.p_mov ∧ a.p_mov ≤ f0_5) ∧
  (f0_7 ≤ a.p_smo ∧ a.p_smo ≤ f0_9) ∧ InBounds a

/-- The postcondition of `initializeAgents` with the decimal bounds of the
documentation taken as exact numbers: `[0.02, 0.03]`, `[0.007, 0.07]`, `[0.3, 0.5]`,
`[0.7, 0.9]`. -/
def InitRangesDecimal (a : Agent) : Prop :=
  a.status = 0 ∧ a.t_rec = 14 ∧ (a.t_inc = 5 ∨ a.t_inc = 6) ∧
  (2 / 100 ≤ a.p_con ∧ a.p_con ≤ 3 / 100) ∧ (2 / 100 ≤ a.p_ext ∧ a.p_ext ≤ 3 / 100) ∧
  (7 / 1000 ≤ a.p_fat ∧ a.p_fat ≤ 7 / 100) ∧ (3 / 10 ≤ a.p_mov ∧ a.p_mov ≤ 5 / 10) ∧
  (7 / 10 ≤ a.p_smo ∧ a.p_smo ≤ 9 / 10) ∧ InBounds a

/-- Exhaustive neighbour search, as the specification words it: some other agent
with status `> 0` lies within distance `R` of agent `i` (all agents are examined). -/
def exposedExhaustive (a : Agent) (i : Nat) (agents : List Agent) : Bool :=
  (List.range agents.length).any (fun j =>
    match agents[j]? with
    | none => false
    | some b => decide (j ≠ i) && decide (b.status > 0) && withinR a b)

/-- Body of the exhaustive variant of Rule 1: the contagion trial is run iff the
exhaustive search finds at least one infected neighbour. -/
def applyRule1ExhaustiveBody (draws : Nat → Nat) (st : List Agent × Nat) (i : Nat) :
    List Agent × Nat :=
  match st.1[i]? with
  | none => st
  | some a =>
    if a.status = 0 then
      if exposedExhaustive a i st.1 = true then
        let r := randomFloat draws 0 1 st.2
        if r.1 ≤ a.p_con then (st.1.set i { a with status := 1 }, r.2)
        else (st.1, r.2)
      else st
    else st

/-- The exhaustive variant of Rule 1. -/
def applyRule1Exhaustive (draws : Nat → Nat) (agents : List Agent) (pos : Nat) :
    List Agent × Nat :=
  forLoop agents.length (applyRule1ExhaustiveBody draws) (agents, pos)

/-- Body of the snapshot variant of Rule 1: the neighbours are read from the
read-only copy `snapshot` of the population taken before the pass. -/
def applyRule1SnapshotBody (draws : Nat → Nat) (snapshot : List Agent)
    (st : List Agent × Nat) (i : Nat) : List Agent × Nat :=
  match st.1[i]? with
  | none => st
  | some a =>
    if a.status = 0 then
      let alpha := scanNeighbours a i 0 snapshot
      if alpha = 1 then
        let r := randomFloat draws 0 1 st.2
        if r.1 ≤ a.p_con then (st.1.set i { a with status := 1 }, r.2)
        else (st.1, r.2)
      else st
    else st

/-- The snapshot variant of Rule 1. -/
def applyRule1Snapshot (draws : Nat → Nat) (agents : List Agent) (pos : Nat) :
    List Agent × Nat :=
  forLoop agents.length (applyRule1SnapshotBody draws agents) (agents, pos)

/-- Any of the per-agent transitions of the five rules. -/
def ruleRel (draws : Nat → Nat) (a b : Agent) : Prop :=
  infectRel a b ∨ moveRel draws a b ∨ progressRel a b ∨ dieRel a b

/-! ## A run with a wave of recoveries -/

/-- The generator stream that returns `0` for its first `49 * n` calls and `RAND_MAX`
afterwards: with `n` agents the zeros cover initialisation (`8 * n` calls), the ten
mobility passes of day `0` (`4 * n` calls each) and Rule 3 of day `0` (`n` calls). -/
def waveDraws (n : Nat) : Nat → Nat :=
  fun k => if k < 49 * n then 0 else RAND_MAX

/-- The agent that `initializeAgents` writes when every draw is `0`. -/
def homeAgent : Agent :=
  { p_con := f0_02, p_ext := f0_02, p_fat := f0_007, p_mov := f0_3, p_smo := f0_7,
    t_inc := 5, t_rec := 14, status := 0, x := 0, y := 0 }

/-- The draws at the cursor positions `lo, .., hi - 1` are all `0`. -/
def ZeroOn (draws : Nat → Nat) (lo hi : Nat) : Prop :=
  ∀ k, lo ≤ k → k < hi → draws k = 0

/-- The draws at every cursor position from `lo` on are `RAND_MAX`. -/
def MaxFrom (draws : Nat → Nat) (lo : Nat) : Prop :=
  ∀ k, lo ≤ k → draws k = RAND_MAX

/-- An agent on which every probability trial fails when the draw is `1.0`. -/
def Stubborn (a : Agent) : Prop :=
  a.p_mov < 1 ∧ a.p_ext < 1 ∧ a.p_fat < 1

/-- The state of every agent of the wave run after `k` applications of Rule 4:
the agent written by the initialisation, infected by Rule 3 on day `0`. -/
def waveAgent (k : Nat) : Agent :=
  progressAgent^[k] { homeAgent with status := 1 }

/-! ## Sample populations -/

/-- An agent with typical parameters, a given status and a given position. -/
def sampleAgent (status : Int) (x y : ℚ) : Agent :=
  { p_con := 1 / 40, p_ext := 1 / 40, p_fat := 1 / 20, p_mov := 2 / 5, p_smo := 4 / 5,
    t_inc := 5, t_rec := 14, status := status, x := x, y := y }

/-- A square root on the rationals rounded down: `floor(sqrt(num * den)) / den`. -/
def sqrtDown (x : ℚ) : ℚ :=
  (Nat.sqrt (x.num.toNat * x.den) : ℚ) / (x.den : ℚ)

/-- The generator stream that returns `0` at every call. -/
def zeroDraws : Nat → Nat :=
  fun _ => 0

/-! # Properties -/

/-! ## Loops -/

theorem forLoop_zero {σ : Type} (body : σ → Nat → σ) (init : σ) :
    forLoop 0 body init = init := by
  simp [forLoop]

theorem forLoop_succ {σ : Type} (n : Nat) (body : σ → Nat → σ) (init : σ) :
    forLoop (n + 1) body init = body (forLoop n body init) n := by
  simp [forLoop, List.range_succ, List.foldl_append]

theorem foldl_inv {σ : Type} (Inv : σ → Prop) (body : σ → Nat → σ) (l : List Nat)
    (init : σ) (h0 : Inv init) (hstep : ∀ st j, j ∈ l → Inv st → Inv (body st j)) :
    Inv (l.foldl body init) := by
  induction l generalizing init with
  | nil => simpa using h0
  | cons j l ih =>
    simp only [List.foldl_cons]
    apply ih
    · exact hstep init j (by simp) h0
    · intro st k hk hst
      exact hstep st k (by simp [hk]) hst

theorem forLoop_inv {σ : Type} (Inv : σ → Prop) (body : σ → Nat → σ) (n : Nat)
    (init : σ) (h0 : Inv init) (hstep : ∀ st j, j < n → Inv st → Inv (body st j)) :
    Inv (forLoop n body init) := by
  unfold forLoop
  apply foldl_inv Inv body _ init h0
  intro st j hj hst
  exact hstep st j (by simpa using hj) hst

/-! ## Steps and evolutions -/

theorem Evolves.refl (rel : Agent → Agent → Prop) (l : List Agent) : Evolves rel l l :=
  ⟨rfl, fun _ a h => ⟨a, h, Relation.ReflTransGen.refl⟩⟩

theorem Evolves.trans {rel : Agent → Agent → Prop} {l l1 l2 : List Agent}
    (h1 : Evolves rel l l1) (h2 : Evolves rel l1 l2) : Evolves rel l l2 := by
  refine ⟨h2.1.trans h1.1, fun i a ha => ?_⟩
  obtain ⟨b, hb, hab⟩ := h1.2 i a ha
  obtain ⟨c, hc, hbc⟩ := h2.2 i b hb
  exact ⟨c, hc, hab.trans hbc⟩

theorem Evolves.mono {rel rel1 : Agent → Agent → Prop} {l l1 : List Agent}
    (hsub : ∀ a b, rel a b → rel1 a b) (h : Evolves rel l l1) : Evolves rel1 l l1 := by
  refine ⟨h.1, fun i a ha => ?_⟩
  obtain ⟨b, hb, hab⟩ := h.2 i a ha
  exact ⟨b, hb, hab.mono hsub⟩

theorem Step.length {rel : Agent → Agent → Prop} {l l1 : List Agent} {j : Nat}
    (h : Step rel l l1 j) : l1.length = l.length := by
  rcases h with h | ⟨a, b, _, _, h⟩ <;> simp [h]

theorem Step.get_ne {rel : Agent → Agent → Prop} {l l1 : List Agent} {j : Nat}
    (h : Step rel l l1 j) (i : Nat) (hij : i ≠ j) : l1[i]? = l[i]? := by
  rcases h with h | ⟨a, b, _, _, h⟩
  · rw [h]
  · rw [h, List.getElem?_set_ne (Ne.symm hij)]

theorem Step.evolves {rel : Agent → Agent → Prop} {l l1 : List Agent} {j : Nat}
    (h : Step rel l l1 j) : Evolves rel l l1 := by
  refine ⟨h.length, fun i a ha => ?_⟩
  rcases h with h | ⟨c, b, hc, hcb, h⟩
  · exact ⟨a, by rw [h]; exact ha, Relation.ReflTransGen.refl⟩
  · by_cases hij : i = j
    · subst hij
      have hlt : i < l.length := (List.getElem?_eq_some_iff.mp ha).1
      have hca : c = a := by rw [hc] at ha; exact Option.some.inj ha
      refine ⟨b, by rw [h, List.getElem?_set_self hlt], ?_⟩
      exact Relation.ReflTransGen.single (hca ▸ hcb)
    · exact ⟨a, by rw [h, List.getElem?_set_ne (Ne.symm hij)]; exact ha,
        Relation.ReflTransGen.refl⟩

theorem Evolves.pred {rel : Agent → Agent → Prop} {l l1 : List Agent} (h : Evolves rel l l1)
    (Pred : Agent → Prop) (hpres : ∀ a b, rel a b → Pred a → Pred b)
    (i : Nat) (a : Agent) (ha : l[i]? = some a) (hp : Pred a) :
    ∃ b, l1[i]? = some b ∧ Pred b := by
  obtain ⟨b, hb, hab⟩ := h.2 i a ha
  refine ⟨b, hb, ?_⟩
  clear hb
  induction hab with
  | refl => exact hp
  | tail _ hcd ih => exact hpres _ _ hcd ih

theorem Evolves.all {rel : Agent → Agent → Prop} {l l1 : List Agent} (h : Evolves rel l l1)
    (Pred : Agent → Prop) (hpres : ∀ a b, rel a b → Pred a → Pred b)
    (hall : ∀ a ∈ l, Pred a) : ∀ b ∈ l1, Pred b := by
  intro b hb
  obtain ⟨i, hi⟩ := List.mem_iff_getElem?.mp hb
  have hlt : i < l.length := h.1 ▸ (List.getElem?_eq_some_iff.mp hi).1
  have ha : l[i]? = some l[i] := List.getElem?_eq_getElem hlt
  obtain ⟨c, hc, hpc⟩ := h.pred Pred hpres i _ ha (hall _ (List.getElem_mem hlt))
  rw [hi] at hc
  exact (Option.some.inj hc) ▸ hpc

theorem forLoop_evolves_pair (rel : Agent → Agent → Prop)
    (body : List Agent × Nat → Nat → List Agent × Nat)
    (hbody : ∀ st j, Step rel st.1 (body st j).1 j) (n : Nat) (init : List Agent × Nat) :
    Evolves rel init.1 (forLoop n body init).1 :=
  forLoop_inv (fun st => Evolves rel init.1 st.1) body n init (Evolves.refl _ _)
    (fun st j _ hst => hst.trans (hbody st j).evolves)

theorem forLoop_evolves_list (rel : Agent → Agent → Prop)
    (body : List Agent → Nat → List Agent)
    (hbody : ∀ l j, Step rel l (body l j) j) (n : Nat) (init : List Agent) :
    Evolves rel init (forLoop n body init) :=
  forLoop_inv (fun l => Evolves rel init l) body n init (Evolves.refl _ _)
    (fun l j _ hl => hl.trans (hbody l j).evolves)

theorem forLoop_inv_idx {σ : Type} (Inv : Nat → σ → Prop) (body : σ → Nat → σ) (n : Nat)
    (init : σ) (h0 : Inv 0 init)
    (hstep : ∀ k st, k < n → Inv k st → Inv (k + 1) (body st k)) :
    Inv n (forLoop n body init) := by
  induction n with
  | zero => simpa [forLoop_zero] using h0
  | succ m ih =>
    rw [forLoop_succ]
    apply hstep m _ (Nat.lt_succ_self m)
    exact ih (fun k st hk => hstep k st (Nat.lt_succ_of_lt hk))

/-! ## Random source -/

theorem RAND_MAX_pos : (0 : ℚ) < (RAND_MAX : ℚ) := by
  norm_num [RAND_MAX]

theorem unit_fraction (draws : Nat → Nat) (hd : UnitDraws draws) (pos : Nat) :
    0 ≤ (draws pos : ℚ) / (RAND_MAX : ℚ) ∧ (draws pos : ℚ) / (RAND_MAX : ℚ) ≤ 1 := by
  constructor
  · exact div_nonneg (Nat.cast_nonneg _) RAND_MAX_pos.le
  · rw [div_le_one RAND_MAX_pos]
    exact_mod_cast hd pos

theorem randomFloat_range (draws : Nat → Nat) (hd : UnitDraws draws) (lo hi : ℚ)
    (h : lo ≤ hi) (pos : Nat) :
    lo ≤ (randomFloat draws lo hi pos).1 ∧ (randomFloat draws lo hi pos).1 ≤ hi := by
  obtain ⟨h0, h1⟩ := unit_fraction draws hd pos
  simp only [randomFloat]
  constructor
  · nlinarith
  · nlinarith

theorem randomFloat_unit (draws : Nat → Nat) (pos : Nat) :
    (randomFloat draws 0 1 pos).1 = (draws pos : ℚ) / (RAND_MAX : ℚ) := by
  simp [randomFloat]

/-! ## The loop bodies as per-agent transitions -/

theorem applyRule1Body_step (draws : Nat → Nat) (st : List Agent × Nat) (j : Nat) :
    Step infectRel st.1 (applyRule1Body draws st j).1 j := by
  unfold applyRule1Body
  split
  · exact Or.inl rfl
  · rename_i a ha
    dsimp only
    split_ifs with h0 h1 h2
    · exact Or.inr ⟨a, _, ha, ⟨h0, rfl⟩, rfl⟩
    · exact Or.inl rfl
    · exact Or.inl rfl
    · exact Or.inl rfl

theorem applyRule3Body_step (draws : Nat → Nat) (st : List Agent × Nat) (j : Nat) :
    Step infectRel st.1 (applyRule3Body draws st j).1 j := by
  unfold applyRule3Body
  split
  · exact Or.inl rfl
  · rename_i a ha
    dsimp only
    split_ifs with h0 h1
    · exact Or.inr ⟨a, _, ha, ⟨h0, rfl⟩, rfl⟩
    · exact Or.inl rfl
    · exact Or.inl rfl

theorem applyRule5Body_step (draws : Nat → Nat) (st : List Agent × Nat) (j : Nat) :
    Step dieRel st.1 (applyRule5Body draws st j).1 j := by
  unfold applyRule5Body
  split
  · exact Or.inl rfl
  · rename_i a ha
    dsimp only
    split_ifs with h0 h1
    · exact Or.inr ⟨a, _, ha, ⟨h0, rfl⟩, rfl⟩
    · exact Or.inl rfl
    · exact Or.inl rfl

theorem applyRule4Body_step (l : List Agent) (j : Nat) :
    Step progressRel l (applyRule4Body l j) j := by
  unfold applyRule4Body
  split
  · exact Or.inl rfl
  · rename_i a ha
    dsimp only
    split_ifs with h0 h1 h2 h3
    · exact Or.inr ⟨a, _, ha, Or.inl ⟨h0, by simp [h1]⟩, rfl⟩
    · exact Or.inr ⟨a, _, ha, Or.inl ⟨h0, by simp [h1]⟩, rfl⟩
    · exact Or.inr ⟨a, _, ha, Or.inr ⟨h2, by simp [h3]⟩, rfl⟩
    · exact Or.inr ⟨a, _, ha, Or.inr ⟨h2, by simp [h3]⟩, rfl⟩
    · exact Or.inl rfl

theorem applyRule2Body_step (draws : Nat → Nat) (st : List Agent × Nat) (j : Nat) :
    Step (moveRel draws) st.1 (applyRule2Body draws st j).1 j := by
  have hP : (0 : ℚ) ≤ P := by norm_num [P]
  have hQ : (0 : ℚ) ≤ Q := by norm_num [Q]
  unfold applyRule2Body
  split
  · exact Or.inl rfl
  · rename_i a ha
    dsimp only
    split_ifs with h0 h1 h2
    · exact Or.inl rfl
    · refine Or.inr ⟨a, _, ha, ⟨h0, _, _, rfl, fun _ => ?_⟩, rfl⟩
      exact ⟨le_max_left _ _, max_le hP (min_le_left _ _),
        le_max_left _ _, max_le hQ (min_le_left _ _)⟩
    · refine Or.inr ⟨a, _, ha, ⟨h0, _, _, rfl, fun hd => ?_⟩, rfl⟩
      have hx := randomFloat_range draws hd 0 P hP
      have hy := randomFloat_range draws hd 0 Q hQ
      exact ⟨(hx _).1, (hx _).2, (hy _).1, (hy _).2⟩
    · exact Or.inl rfl

/-! ## The rule passes as evolutions -/

theorem applyRule1_evolves (draws : Nat → Nat) (agents : List Agent) (pos : Nat) :
    Evolves infectRel agents (applyRule1 draws agents pos).1 :=
  forLoop_evolves_pair infectRel _ (applyRule1Body_step draws) _ (agents, pos)

theorem applyRule2_evolves (draws : Nat → Nat) (agents : List Agent) (pos : Nat) :
    Evolves (moveRel draws) agents (applyRule2 draws agents pos).1 :=
  forLoop_evolves_pair (moveRel draws) _ (applyRule2Body_step draws) _ (agents, pos)

theorem applyRule3_evolves (draws : Nat → Nat) (agents : List Agent) (pos : Nat) :
    Evolves infectRel agents (applyRule3 draws agents pos).1 :=
  forLoop_evolves_pair infectRel _ (applyRule3Body_step draws) _ (agents, pos)

theorem applyRule4_evolves (agents : List Agent) :
    Evolves progressRel agents (applyRule4 agents) :=
  forLoop_evolves_list progressRel _ applyRule4Body_step _ agents

theorem applyRule5_evolves (draws : Nat → Nat) (agents : List Agent) (pos : Nat) :
    Evolves dieRel agents (applyRule5 draws agents pos).1 :=
  forLoop_evolves_pair dieRel _ (applyRule5Body_step draws) _ (agents, pos)

/-! ## Status validity and counting -/

theorem infectRel_valid (a b : Agent) (h : infectRel a b) (_hv : ValidStatus a.status) :
    ValidStatus b.status := by
  rw [h.2]; exact Or.inr (Or.inl rfl)

theorem moveRel_valid (draws : Nat → Nat) (a b : Agent) (h : moveRel draws a b)
    (hv : ValidStatus a.status) : ValidStatus b.status := by
  obtain ⟨_, x1, y1, hb, _⟩ := h
  rw [hb]; exact hv

theorem progressRel_valid (a b : Agent) (h : progressRel a b) (hv : ValidStatus a.status) :
    ValidStatus b.status := by
  rcases h with ⟨_, hb⟩ | ⟨_, hb⟩
  · rw [hb]
    dsimp only
    split_ifs
    · exact Or.inr (Or.inr (Or.inl rfl))
    · exact hv
  · rw [hb]
    split_ifs
    · exact Or.inl rfl
    · exact hv

theorem dieRel_valid (a b : Agent) (h : dieRel a b) (_hv : ValidStatus a.status) :
    ValidStatus b.status := by
  rw [h.2]; exact Or.inr (Or.inr (Or.inr rfl))

theorem count_fold (l : List Agent) (c : Counts) (hv : AllValid l) :
    (l.foldl countAgentsBody c).infected + (l.foldl countAgentsBody c).quarantined
      + (l.foldl countAgentsBody c).deceased + susceptibleCount l
      = c.infected + c.quarantined + c.deceased + (l.length : Int) := by
  induction l generalizing c with
  | nil => simp [susceptibleCount]
  | cons a l ih =>
    have hl : AllValid l := fun b hb => hv b (List.mem_cons_of_mem _ hb)
    have ha : ValidStatus a.status := hv a (List.mem_cons_self _ _)
    have hs := ih (countAgentsBody c a) hl
    simp only [List.foldl_cons, List.length_cons]
    unfold susceptibleCount at hs ⊢
    rw [List.countP_cons]
    rcases ha with h | h | h | h <;>
      simp [countAgentsBody, h] at hs ⊢ <;> linarith

theorem conserved_of_valid (agents : List Agent) (hv : AllValid agents) :
    Conserved agents.length agents := by
  refine ⟨rfl, hv, ?_⟩
  have h := count_fold agents { infected := 0, quarantined := 0, deceased := 0 } hv
  simpa [countAgentsByStatus] using h

theorem initializeAgents_spec (draws : Nat → Nat) (mem : List Agent) (pos : Nat) :
    (initializeAgents draws mem pos).1.length = mem.length ∧
      ∀ a ∈ (initializeAgents draws mem pos).1, a.status = 0 := by
  have key := forLoop_inv_idx
    (fun k (st : List Agent × Nat) => st.1.length = mem.length ∧
      ∀ (i : Nat) (a : Agent), i < k → st.1[i]? = some a → a.status = 0)
    (initializeAgentsBody draws) mem.length (mem, pos)
    ⟨rfl, fun i a hi _ => absurd hi (Nat.not_lt_zero i)⟩
    (by
      intro k st _ hst
      refine ⟨by simp [initializeAgentsBody, hst.1], fun i a hi ha => ?_⟩
      by_cases hik : i = k
      · subst hik
        simp only [initializeAgentsBody] at ha
        have hlt : i < st.1.length := by
          have := (List.getElem?_eq_some_iff.mp ha).1
          simpa using this
        rw [List.getElem?_set_self hlt] at ha
        rw [← Option.some.inj ha]
      · have hlt : i < k := lt_of_le_of_ne (Nat.lt_succ_iff.mp hi) hik
        simp only [initializeAgentsBody] at ha
        rw [List.getElem?_set_ne (Ne.symm hik)] at ha
        exact hst.2 i a hlt ha)
  refine ⟨key.1, fun a ha => ?_⟩
  obtain ⟨i, hi⟩ := List.mem_iff_getElem?.mp ha
  have hlt : i < mem.length := key.1 ▸ (List.getElem?_eq_some_iff.mp hi).1
  exact key.2 i a hlt hi

theorem initializeAgents_valid (draws : Nat → Nat) (mem : List Agent) (pos : Nat) :
    AllValid (initializeAgents draws mem pos).1 :=
  fun a ha => Or.inl ((initializeAgents_spec draws mem pos).2 a ha)

theorem applyRule1_valid (draws : Nat → Nat) (agents : List Agent) (pos : Nat)
    (hv : AllValid agents) : AllValid (applyRule1 draws agents pos).1 :=
  (applyRule1_evolves draws agents pos).all (fun a => ValidStatus a.status) infectRel_valid hv

theorem applyRule2_valid (draws : Nat → Nat) (agents : List Agent) (pos : Nat)
    (hv : AllValid agents) : AllValid (applyRule2 draws agents pos).1 :=
  (applyRule2_evolves draws agents pos).all (fun a => ValidStatus a.status)
    (moveRel_valid draws) hv

theorem applyRule3_valid (draws : Nat → Nat) (agents : List Agent) (pos : Nat)
    (hv : AllValid agents) : AllValid (applyRule3 draws agents pos).1 :=
  (applyRule3_evolves draws agents pos).all (fun a => ValidStatus a.status) infectRel_valid hv

theorem applyRule4_valid (agents : List Agent) (hv : AllValid agents) :
    AllValid (applyRule4 agents) :=
  (applyRule4_evolves agents).all (fun a => ValidStatus a.status) progressRel_valid hv

theorem applyRule5_valid (draws : Nat → Nat) (agents : List Agent) (pos : Nat)
    (hv : AllValid agents) : AllValid (applyRule5 draws agents pos).1 :=
  (applyRule5_evolves draws agents pos).all (fun a => ValidStatus a.status) dieRel_valid hv

theorem conserved_of_length (n : Nat) (agents : List Agent) (hl : agents.length = n)
    (hv : AllValid agents) : Conserved n agents := by
  subst hl
  exact conserved_of_valid agents hv

theorem dailyCycle_valid (draws : Nat → Nat) (movs : Nat) (st : List Agent × Nat)
    (hv : AllValid st.1) :
    (dailyCycle draws movs st).1.length = st.1.length ∧ AllValid (dailyCycle draws movs st).1 := by
  have hmov := forLoop_inv
    (fun s : List Agent × Nat => s.1.length = st.1.length ∧ AllValid s.1)
    (movementBody draws) movs st ⟨rfl, hv⟩
    (by
      intro s _ _ hs
      unfold movementBody
      refine ⟨?_, applyRule2_valid _ _ _ (applyRule1_valid _ _ _ hs.2)⟩
      rw [(applyRule2_evolves _ _ _).1, (applyRule1_evolves _ _ _).1, hs.1])
  unfold dailyCycle
  dsimp only
  refine ⟨?_, applyRule5_valid _ _ _ (applyRule4_valid _ (applyRule3_valid _ _ _ hmov.2))⟩
  rw [(applyRule5_evolves _ _ _).1, (applyRule4_evolves _).1, (applyRule3_evolves _ _ _).1,
    hmov.1]

theorem simulateDays_valid (draws : Nat → Nat) (days movs k : Nat) (mem : List Agent)
    (pos : Nat) :
    (simulateDays draws days movs k mem pos).agents.length = mem.length ∧
      AllValid (simulateDays draws days movs k mem pos).agents := by
  unfold simulateDays
  apply forLoop_inv (fun s : Sim => s.agents.length = mem.length ∧ AllValid s.agents)
  · exact ⟨(initializeAgents_spec draws mem pos).1, initializeAgents_valid draws mem pos⟩
  · intro s day _ hs
    have h := dailyCycle_valid draws movs (s.agents, s.pos) hs.2
    exact ⟨h.1.trans hs.1, h.2⟩

/-- C1. Population conservation: `initializeAgents` yields a conserved population;
every rule pass maps a population with valid statuses to a conserved population of
the same size; and after any number of daily cycles of `runSimulation` the size is
unchanged, every status is one of `0, 1, -1, -2`, and the three counts of
`countAgentsByStatus` plus the number of status-`0` agents equal the size. -/
theorem population_conservation (draws : Nat → Nat) (mem : List Agent) (pos : Nat) :
    Conserved mem.length (initializeAgents draws mem pos).1 ∧
    (∀ (agents : List Agent) (p : Nat), AllValid agents →
      Conserved agents.length (applyRule1 draws agents p).1 ∧
      Conserved agents.length (applyRule2 draws agents p).1 ∧
      Conserved agents.length (applyRule3 draws agents p).1 ∧
      Conserved agents.length (applyRule4 agents) ∧
      Conserved agents.length (applyRule5 draws agents p).1) ∧
    (∀ days movs k : Nat,
      Conserved mem.length (simulateDays draws days movs k mem pos).agents) ∧
    Conserved mem.length (runSimulation draws mem pos).agents := by
  refine ⟨?_, ?_, ?_, ?_⟩
  · exact conserved_of_length _ _ (initializeAgents_spec draws mem pos).1
      (initializeAgents_valid draws mem pos)
  · intro agents p hv
    exact ⟨conserved_of_length _ _ (applyRule1_evolves _ _ _).1 (applyRule1_valid _ _ _ hv),
      conserved_of_length _ _ (applyRule2_evolves _ _ _).1 (applyRule2_valid _ _ _ hv),
      conserved_of_length _ _ (applyRule3_evolves _ _ _).1 (applyRule3_valid _ _ _ hv),
      conserved_of_length _ _ (applyRule4_evolves _).1 (applyRule4_valid _ hv),
      conserved_of_length _ _ (applyRule5_evolves _ _ _).1 (applyRule5_valid _ _ _ hv)⟩
  · intro days movs k
    have h := simulateDays_valid draws days movs k mem pos
    exact conserved_of_length _ _ h.1 h.2
  · have h := simulateDays_valid draws D_MAX M_MAX D_MAX mem pos
    exact conserved_of_length _ _ h.1 h.2

theorem population_conservation_witness :
    AllValid [sampleAgent 0 0 0, sampleAgent 1 0 0] ∧
      Conserved 2 (applyRule1 zeroDraws [sampleAgent 0 0 0, sampleAgent 1 0 0] 0).1 :=
  have hv : AllValid [sampleAgent 0 0 0, sampleAgent 1 0 0] := by
    intro a ha
    simp only [List.mem_cons, List.mem_singleton, List.not_mem_nil, or_false] at ha
    rcases ha with h | h <;> subst h
    · exact Or.inl rfl
    · exact Or.inr (Or.inl rfl)
  ⟨hv, ((population_conservation zeroDraws [] 0).2.1 _ 0 hv).1⟩

/-! ## Deceased agents -/

theorem scanNeighbours_set (b : Agent) (k : Nat) (l : List Agent) (j0 i : Nat) (a c : Agent)
    (hi : l[i]? = some a) (ha : ¬ a.status > 0) (hc : ¬ c.status > 0) :
    scanNeighbours b k j0 (l.set i c) = scanNeighbours b k j0 l := by
  induction l generalizing j0 i with
  | nil => simp
  | cons d rest ih =>
    cases i with
    | zero =>
      have hda : d = a := by simpa using hi
      subst hda
      simp [scanNeighbours, ha, hc]
    | succ i =>
      have hi1 : rest[i]? = some a := by simpa using hi
      simp only [List.set_cons_succ, scanNeighbours]
      rw [ih (j0 + 1) i hi1]

theorem scanNeighbours_eq_one (b : Agent) (k : Nat) (l : List Agent) (j0 : Nat) :
    scanNeighbours b k j0 l = 1 ↔
      ∃ (j : Nat) (c : Agent), l[j]? = some c ∧ k ≠ j0 + j ∧ 0 < c.status ∧ withinR b c = true := by
  induction l generalizing j0 with
  | nil => simp [scanNeighbours]
  | cons d rest ih =>
    unfold scanNeighbours
    constructor
    · intro h
      split_ifs at h with h1 h2
      · exact ⟨0, d, by simp, by simpa using h1.1, h1.2, h2⟩
      · obtain ⟨j, c, hj, hk, hc, hw⟩ := (ih (j0 + 1)).mp h
        exact ⟨j + 1, c, by simpa using hj, by omega, hc, hw⟩
      · obtain ⟨j, c, hj, hk, hc, hw⟩ := (ih (j0 + 1)).mp h
        exact ⟨j + 1, c, by simpa using hj, by omega, hc, hw⟩
    · rintro ⟨j, c, hj, hk, hc, hw⟩
      cases j with
      | zero =>
        have hdc : d = c := by simpa using hj
        subst hdc
        have h1 : k ≠ j0 ∧ d.status > 0 := ⟨by simpa using hk, hc⟩
        simp [h1, hw]
      | succ j =>
        have hr : scanNeighbours b k (j0 + 1) rest = 1 :=
          (ih (j0 + 1)).mpr ⟨j, c, by simpa using hj, by omega, hc, hw⟩
        split_ifs <;> simp [hr]

theorem scanNeighbours_zero_or_one (b : Agent) (k : Nat) (l : List Agent) (j0 : Nat) :
    scanNeighbours b k j0 l = 0 ∨ scanNeighbours b k j0 l = 1 := by
  induction l generalizing j0 with
  | nil => simp [scanNeighbours]
  | cons d rest ih =>
    unfold scanNeighbours
    split_ifs
    · exact Or.inr rfl
    · exact ih _
    · exact ih _

theorem infectRel_fixes (a : Agent) (ha : a.status ≠ 0) (c d : Agent) (h : infectRel c d)
    (hc : c = a) : d = a := by
  subst hc; exact absurd h.1 ha

theorem moveRel_fixes_deceased (draws : Nat → Nat) (a : Agent) (ha : a.status = -2)
    (c d : Agent) (h : moveRel draws c d) (hc : c = a) : d = a := by
  subst hc; exact absurd ha h.1

theorem progressRel_fixes (a : Agent) (h0 : ¬ a.status > 0) (h1 : a.status ≠ -1)
    (c d : Agent) (h : progressRel c d) (hc : c = a) : d = a := by
  subst hc
  rcases h with ⟨h, _⟩ | ⟨h, _⟩
  · exact absurd h h0
  · exact absurd h h1

theorem dieRel_fixes (a : Agent) (ha : a.status ≠ -1) (c d : Agent) (h : dieRel c d)
    (hc : c = a) : d = a := by
  subst hc; exact absurd h.1 ha

/-- C2. Deceased is terminal: an agent with status `-2` is left unchanged (status,
position, counters and all other fields) by each of `applyRule1` .. `applyRule5`, for
every population and draw sequence; and it never sets `alpha` in Rule 1: whenever the
neighbour scan returns `1` it stopped at an infected agent other than the deceased
one, and moving the deceased agent to any position leaves `alpha` unchanged. -/
theorem deceased_terminal (draws : Nat → Nat) (agents : List Agent) (pos i : Nat) (a : Agent)
    (hi : agents[i]? = some a) (hd : a.status = -2) :
    (applyRule1 draws agents pos).1[i]? = some a ∧
    (applyRule2 draws agents pos).1[i]? = some a ∧
    (applyRule3 draws agents pos).1[i]? = some a ∧
    (applyRule4 agents)[i]? = some a ∧
    (applyRule5 draws agents pos).1[i]? = some a ∧
    (∀ (b : Agent) (k : Nat), scanNeighbours b k 0 agents = 1 →
      ∃ (j : Nat) (c : Agent), j ≠ k ∧ j ≠ i ∧ agents[j]? = some c ∧ 0 < c.status ∧
        withinR b c = true) ∧
    (∀ (b : Agent) (k : Nat) (x1 y1 : ℚ),
      scanNeighbours b k 0 (agents.set i { a with x := x1, y := y1 })
        = scanNeighbours b k 0 agents) := by
  have h0 : a.status ≠ 0 := by rw [hd]; decide
  have h1 : ¬ a.status > 0 := by rw [hd]; decide
  have h2 : a.status ≠ -1 := by rw [hd]; decide
  have fix : ∀ {rel : Agent → Agent → Prop} {l1 : List Agent}, Evolves rel agents l1 →
      (∀ c d, rel c d → c = a → d = a) → l1[i]? = some a := by
    intro rel l1 hev hrel
    obtain ⟨b, hb, hba⟩ := hev.pred (fun c => c = a) hrel i a hi rfl
    rw [hb, hba]
  refine ⟨fix (applyRule1_evolves _ _ _) (infectRel_fixes a h0),
    fix (applyRule2_evolves _ _ _) (moveRel_fixes_deceased draws a hd),
    fix (applyRule3_evolves _ _ _) (infectRel_fixes a h0),
    fix (applyRule4_evolves _) (progressRel_fixes a h1 h2),
    fix (applyRule5_evolves _ _ _) (dieRel_fixes a h2), ?_, ?_⟩
  · intro b k hscan
    obtain ⟨j, c, hj, hk, hc, hw⟩ := (scanNeighbours_eq_one b k agents 0).mp hscan
    refine ⟨j, c, by omega, ?_, hj, hc, hw⟩
    rintro rfl
    rw [hi] at hj
    rw [← Option.some.inj hj, hd] at hc
    exact absurd hc (by decide)
  · intro b k x1 y1
    exact scanNeighbours_set b k agents 0 i a _ hi h1 h1

theorem deceased_terminal_witness :
    [sampleAgent 0 0 0, sampleAgent (-2) 0 0][1]? = some (sampleAgent (-2) 0 0) ∧
    (sampleAgent (-2) 0 0).status = -2 ∧
    (applyRule1 zeroDraws [sampleAgent 0 0 0, sampleAgent (-2) 0 0] 0).1[1]?
      = some (sampleAgent (-2) 0 0) ∧
    (applyRule2 zeroDraws [sampleAgent 0 0 0, sampleAgent (-2) 0 0] 0).1[1]?
      = some (sampleAgent (-2) 0 0) ∧
    (applyRule5 zeroDraws [sampleAgent 0 0 0, sampleAgent (-2) 0 0] 0).1[1]?
      = some (sampleAgent (-2) 0 0) :=
  have h := deceased_terminal zeroDraws [sampleAgent 0 0 0, sampleAgent (-2) 0 0] 0 1
    (sampleAgent (-2) 0 0) rfl rfl
  ⟨rfl, rfl, h.1, h.2.1, h.2.2.2.2.1⟩

/-! ## Sources of infection -/

theorem moveRel_not_infected (draws : Nat → Nat) (a b : Agent) (h : moveRel draws a b)
    (hs : a.status ≠ 1) : b.status ≠ 1 := by
  obtain ⟨_, x1, y1, hb, _⟩ := h
  rw [hb]; exact hs

theorem progressRel_not_infected (a b : Agent) (h : progressRel a b) (hs : a.status ≠ 1) :
    b.status ≠ 1 := by
  rcases h with ⟨_, hb⟩ | ⟨_, hb⟩
  · rw [hb]
    dsimp only
    split_ifs
    · decide
    · exact hs
  · rw [hb]
    split_ifs
    · dsimp only; decide
    · exact hs

theorem dieRel_not_infected (a b : Agent) (h : dieRel a b) (_hs : a.status ≠ 1) :
    b.status ≠ 1 := by
  rw [h.2]; dsimp only; decide

/-- C3. Infection only through Rule 1 or Rule 3: an agent that is not Infected
(status different from `1`) before a pass of `applyRule2`, `applyRule4` or
`applyRule5` is not Infected after it, for every population and draw sequence. -/
theorem infection_only_by_contagion_rules (draws : Nat → Nat) (agents : List Agent)
    (pos i : Nat) (a : Agent) (hi : agents[i]? = some a) (hs : a.status ≠ 1) :
    (∃ b, (applyRule2 draws agents pos).1[i]? = some b ∧ b.status ≠ 1) ∧
    (∃ b, (applyRule4 agents)[i]? = some b ∧ b.status ≠ 1) ∧
    (∃ b, (applyRule5 draws agents pos).1[i]? = some b ∧ b.status ≠ 1) :=
  ⟨(applyRule2_evolves draws agents pos).pred (fun c => c.status ≠ 1)
      (moveRel_not_infected draws) i a hi hs,
    (applyRule4_evolves agents).pred (fun c => c.status ≠ 1) progressRel_not_infected i a hi hs,
    (applyRule5_evolves draws agents pos).pred (fun c => c.status ≠ 1)
      dieRel_not_infected i a hi hs⟩

theorem infection_only_by_contagion_rules_witness :
    [sampleAgent 1 0 0, sampleAgent (-1) 0 0][1]? = some (sampleAgent (-1) 0 0) ∧
    (sampleAgent (-1) 0 0).status ≠ 1 ∧
    (∃ b, (applyRule4 [sampleAgent 1 0 0, sampleAgent (-1) 0 0])[1]? = some b ∧
      b.status ≠ 1) :=
  ⟨rfl, by decide,
    (infection_only_by_contagion_rules zeroDraws [sampleAgent 1 0 0, sampleAgent (-1) 0 0] 0 1
      (sampleAgent (-1) 0 0) rfl (by decide)).2.1⟩

/-! ## Position bounds -/

theorem moveRel_inBounds (draws : Nat → Nat) (hd : UnitDraws draws) (a b : Agent)
    (h : moveRel draws a b) (_hb : InBounds a) : InBounds b := by
  obtain ⟨_, x1, y1, hb, hxy⟩ := h
  rw [hb]
  exact hxy hd

/-- C4. Position bounds are invariant under mobility: if every agent lies in
`[0, P] × [0, Q]` before `applyRule2` and every draw is a unit fraction in `[0, 1]`,
every agent lies in `[0, P] × [0, Q]` after it (local moves are clamped, distant
moves are drawn inside the area, agents that do not move keep their position). -/
theorem position_bounds_invariant (draws : Nat → Nat) (hd : UnitDraws draws)
    (agents : List Agent) (pos : Nat) (hb : ∀ a ∈ agents, InBounds a) :
    (applyRule2 draws agents pos).1.length = agents.length ∧
      ∀ b ∈ (applyRule2 draws agents pos).1, InBounds b :=
  ⟨(applyRule2_evolves draws agents pos).1,
    (applyRule2_evolves draws agents pos).all InBounds (moveRel_inBounds draws hd) hb⟩

theorem position_bounds_invariant_witness :
    UnitDraws zeroDraws ∧
    (∀ a ∈ [sampleAgent 0 0 500, sampleAgent 1 500 0], InBounds a) ∧
    (∀ b ∈ (applyRule2 zeroDraws [sampleAgent 0 0 500, sampleAgent 1 500 0] 0).1,
      InBounds b) :=
  have hd : UnitDraws zeroDraws := fun _ => Nat.zero_le _
  have hb : ∀ a ∈ [sampleAgent 0 0 500, sampleAgent 1 500 0], InBounds a := by
    intro a ha
    simp only [List.mem_cons, List.mem_singleton, List.not_mem_nil, or_false] at ha
    rcases ha with h | h <;> subst h <;> norm_num [InBounds, sampleAgent, P, Q]
  ⟨hd, hb, (position_bounds_invariant zeroDraws hd _ 0 hb).2⟩

/-! ## Rule 1 at a given index -/

theorem foldl_evolves_pair (rel : Agent → Agent → Prop)
    (body : List Agent × Nat → Nat → List Agent × Nat)
    (hbody : ∀ st j, Step rel st.1 (body st j).1 j) (idx : List Nat)
    (init : List Agent × Nat) : Evolves rel init.1 (idx.foldl body init).1 :=
  foldl_inv (fun st => Evolves rel init.1 st.1) body idx init (Evolves.refl _ _)
    (fun st j _ hst => hst.trans (hbody st j).evolves)

theorem forLoop_split {σ : Type} (body : σ → Nat → σ) (k n : Nat) (h : k ≤ n) (init : σ) :
    forLoop n body init = (List.range' k (n - k)).foldl body (forLoop k body init) := by
  unfold forLoop
  rw [← List.foldl_append, List.range_eq_range', List.range_eq_range']
  have := List.range'_append 0 k (n - k) 1
  simp only [Nat.zero_add, Nat.one_mul] at this
  rw [this, Nat.sub_add_cancel h]

theorem forLoop_evolves_tail (rel : Agent → Agent → Prop)
    (body : List Agent × Nat → Nat → List Agent × Nat)
    (hbody : ∀ st j, Step rel st.1 (body st j).1 j) (k n : Nat) (h : k ≤ n)
    (init : List Agent × Nat) :
    Evolves rel (forLoop k body init).1 (forLoop n body init).1 := by
  rw [forLoop_split body k n h init]
  exact foldl_evolves_pair rel body hbody _ _

theorem forLoop_get_before (rel : Agent → Agent → Prop)
    (body : List Agent × Nat → Nat → List Agent × Nat)
    (hbody : ∀ st j, Step rel st.1 (body st j).1 j) (k i : Nat) (hki : k ≤ i)
    (init : List Agent × Nat) : (forLoop k body init).1[i]? = init.1[i]? := by
  apply forLoop_inv (fun st : List Agent × Nat => st.1[i]? = init.1[i]?) body k init rfl
  intro st j hj hst
  rw [(hbody st j).get_ne i (by omega), hst]

theorem forLoop_get_after (rel : Agent → Agent → Prop)
    (body : List Agent × Nat → Nat → List Agent × Nat)
    (hbody : ∀ st j, Step rel st.1 (body st j).1 j) (n i : Nat) (hi : i < n)
    (init : List Agent × Nat) :
    (forLoop n body init).1[i]? = (body (forLoop i body init) i).1[i]? := by
  rw [forLoop_split body (i + 1) n hi init, forLoop_succ]
  apply foldl_inv
    (fun st : List Agent × Nat => st.1[i]? = (body (forLoop i body init) i).1[i]?) body _ _ rfl
  intro st j hj hst
  have hj1 : i + 1 ≤ j := (List.mem_range'_1.mp hj).1
  rw [(hbody st j).get_ne i (by omega), hst]

theorem distanceSq_comm (a b : Agent) : distanceSq a b = distanceSq b a := by
  simp only [distanceSq]; ring

theorem withinR_comm (a b : Agent) : withinR a b = withinR b a := by
  simp only [withinR, distanceSq_comm a b]

/-- The state of the population when `applyRule1` reaches index `i`. -/
theorem applyRule1_at (draws : Nat → Nat) (agents : List Agent) (pos i : Nat) (a : Agent)
    (hi : agents[i]? = some a) :
    (forLoop i (applyRule1Body draws) (agents, pos)).1[i]? = some a ∧
    (applyRule1 draws agents pos).1[i]?
      = (applyRule1Body draws (forLoop i (applyRule1Body draws) (agents, pos)) i).1[i]? ∧
    Evolves infectRel agents (forLoop i (applyRule1Body draws) (agents, pos)).1 ∧
    Evolves infectRel (forLoop i (applyRule1Body draws) (agents, pos)).1
      (applyRule1 draws agents pos).1 := by
  have hlt : i < agents.length := (List.getElem?_eq_some_iff.mp hi).1
  refine ⟨?_, ?_, ?_, ?_⟩
  · rw [forLoop_get_before infectRel _ (applyRule1Body_step draws) i i le_rfl]
    exact hi
  · exact forLoop_get_after infectRel _ (applyRule1Body_step draws) _ i hlt _
  · exact forLoop_evolves_pair infectRel _ (applyRule1Body_step draws) _ _
  · exact forLoop_evolves_tail infectRel _ (applyRule1Body_step draws) i _ hlt.le _

theorem infected_stays (l l1 : List Agent) (h : Evolves infectRel l l1) (j : Nat) (b : Agent)
    (hj : l[j]? = some b) (hb : b.status ≠ 0) : l1[j]? = some b := by
  obtain ⟨c, hc, hcb⟩ := h.pred (fun c => c = b) (infectRel_fixes b hb) j b hj rfl
  rw [hc, hcb]

theorem applyRule1Body_get (draws : Nat → Nat) (st : List Agent × Nat) (i : Nat) (a : Agent)
    (hi : st.1[i]? = some a) (hs : a.status = 0) :
    (applyRule1Body draws st i).1[i]?
      = if scanNeighbours a i 0 st.1 = 1 ∧ (randomFloat draws 0 1 st.2).1 ≤ a.p_con
        then some { a with status := 1 } else some a := by
  have hlt : i < st.1.length := (List.getElem?_eq_some_iff.mp hi).1
  simp only [applyRule1Body, hi, hs, if_true]
  by_cases h1 : scanNeighbours a i 0 st.1 = 1
  · by_cases h2 : (randomFloat draws 0 1 st.2).1 ≤ a.p_con
    · simp [h1, h2, List.getElem?_set_self hlt]
    · simp [h1, h2, hi]
  · simp [h1, hi]

theorem randomFloat_zeroDraws (lo hi : ℚ) (pos : Nat) :
    (randomFloat zeroDraws lo hi pos).1 = lo := by
  simp [randomFloat, zeroDraws]

/-! ## Rule 1 with the distance test as the machine computes it -/

theorem scanNeighboursBy_withinR (a : Agent) (i j : Nat) (l : List Agent) :
    scanNeighboursBy withinR a i j l = scanNeighbours a i j l := by
  induction l generalizing j with
  | nil => rfl
  | cons b rest ih => simp only [scanNeighboursBy, scanNeighbours, ih]

theorem applyRule1By_withinR (draws : Nat → Nat) (agents : List Agent) (pos : Nat) :
    applyRule1By withinR draws agents pos = applyRule1 draws agents pos := by
  have hbody : applyRule1BodyBy withinR draws = applyRule1Body draws := by
    funext st i
    simp only [applyRule1BodyBy, applyRule1Body, scanNeighboursBy_withinR]
  unfold applyRule1By applyRule1
  rw [hbody]

theorem scanNeighboursBy_eq_one (within : Agent → Agent → Bool) (b : Agent) (k : Nat)
    (l : List Agent) (j0 : Nat) :
    scanNeighboursBy within b k j0 l = 1 ↔
      ∃ (j : Nat) (c : Agent), l[j]? = some c ∧ k ≠ j0 + j ∧ 0 < c.status ∧ within b c = true := by
  induction l generalizing j0 with
  | nil => simp [scanNeighboursBy]
  | cons d rest ih =>
    unfold scanNeighboursBy
    constructor
    · intro h
      split_ifs at h with h1 h2
      · exact ⟨0, d, by simp, by simpa using h1.1, h1.2, h2⟩
      · obtain ⟨j, c, hj, hk, hc, hw⟩ := (ih (j0 + 1)).mp h
        exact ⟨j + 1, c, by simpa using hj, by omega, hc, hw⟩
      · obtain ⟨j, c, hj, hk, hc, hw⟩ := (ih (j0 + 1)).mp h
        exact ⟨j + 1, c, by simpa using hj, by omega, hc, hw⟩
    · rintro ⟨j, c, hj, hk, hc, hw⟩
      cases j with
      | zero =>
        have hdc : d = c := by simpa using hj
        subst hdc
        have h1 : k ≠ j0 ∧ d.status > 0 := ⟨by simpa using hk, hc⟩
        simp [h1, hw]
      | succ j =>
        have hr : scanNeighboursBy within b k (j0 + 1) rest = 1 :=
          (ih (j0 + 1)).mpr ⟨j, c, by simpa using hj, by omega, hc, hw⟩
        split_ifs <;> simp [hr]

theorem applyRule1BodyBy_step (within : Agent → Agent → Bool) (draws : Nat → Nat)
    (st : List Agent × Nat) (j : Nat) :
    Step infectRel st.1 (applyRule1BodyBy within draws st j).1 j := by
  unfold applyRule1BodyBy
  split
  · exact Or.inl rfl
  · rename_i a ha
    dsimp only
    split_ifs with h0 h1 h2
    · exact Or.inr ⟨a, _, ha, ⟨h0, rfl⟩, rfl⟩
    · exact Or.inl rfl
    · exact Or.inl rfl
    · exact Or.inl rfl

theorem applyRule1BodyBy_get (within : Agent → Agent → Bool) (draws : Nat → Nat)
    (st : List Agent × Nat) (i : Nat) (a : Agent)
    (hi : st.1[i]? = some a) (hs : a.status = 0) :
    (applyRule1BodyBy within draws st i).1[i]?
      = if scanNeighboursBy within a i 0 st.1 = 1 ∧ (randomFloat draws 0 1 st.2).1 ≤ a.p_con
        then some { a with status := 1 } else some a := by
  have hlt : i < st.1.length := (List.getElem?_eq_some_iff.mp hi).1
  simp only [applyRule1BodyBy, hi, hs, if_true]
  by_cases h1 : scanNeighboursBy within a i 0 st.1 = 1
  · by_cases h2 : (randomFloat draws 0 1 st.2).1 ≤ a.p_con
    · simp [h1, h2, List.getElem?_set_self hlt]
    · simp [h1, h2, hi]
  · simp [h1, hi]

/-- The state of the population when `applyRule1By` reaches index `i`. -/
theorem applyRule1By_at (within : Agent → Agent → Bool) (draws : Nat → Nat)
    (agents : List Agent) (pos i : Nat) (a : Agent) (hi : agents[i]? = some a) :
    (forLoop i (applyRule1BodyBy within draws) (agents, pos)).1[i]? = some a ∧
    (applyRule1By within draws agents pos).1[i]?
      = (applyRule1BodyBy within draws
          (forLoop i (applyRule1BodyBy within draws) (agents, pos)) i).1[i]? ∧
    Evolves infectRel agents (forLoop i (applyRule1BodyBy within draws) (agents, pos)).1 ∧
    Evolves infectRel (forLoop i (applyRule1BodyBy within draws) (agents, pos)).1
      (applyRule1By within draws agents pos).1 := by
  have hlt : i < agents.length := (List.getElem?_eq_some_iff.mp hi).1
  refine ⟨?_, ?_, ?_, ?_⟩
  · rw [forLoop_get_before infectRel _ (applyRule1BodyBy_step within draws) i i le_rfl]
    exact hi
  · exact forLoop_get_after infectRel _ (applyRule1BodyBy_step within draws) _ i hlt _
  · exact forLoop_evolves_pair infectRel _ (applyRule1BodyBy_step within draws) _ _
  · exact forLoop_evolves_tail infectRel _ (applyRule1BodyBy_step within draws) i _ hlt.le _

/-- C5 (amended). With a random source that returns `0.0` at every draw, Rule 1 is
deterministic, whatever the outcomes `within` of the code's test
`distance(agents[i], agents[j]) <= R` (in particular for the test as the machine
computes it in `float` arithmetic, `withinFloat fl sqrtfl`): a Susceptible agent with
non-negative contagion probability for which the test succeeds against an agent that
is infected (status `> 0`) at the start of the pass is always Infected after it (the
trial `0.0 <= p_con` succeeds); a Susceptible agent stays unchanged when the test
fails against every other agent that is infected at the end of the pass. -/
theorem zero_draws_contagion (within : Agent → Agent → Bool) (agents : List Agent)
    (pos i : Nat) (a : Agent)
    (hi : agents[i]? = some a) (hs : a.status = 0) (hp : 0 ≤ a.p_con) :
    ((∃ (j : Nat) (b : Agent), j ≠ i ∧ agents[j]? = some b ∧ 0 < b.status ∧
        within a b = true) →
      (applyRule1By within zeroDraws agents pos).1[i]? = some { a with status := 1 }) ∧
    ((∀ (j : Nat) (b : Agent), j ≠ i →
        (applyRule1By within zeroDraws agents pos).1[j]? = some b →
        within a b = true → ¬ 0 < b.status) →
      (applyRule1By within zeroDraws agents pos).1[i]? = some a) := by
  obtain ⟨hat, hfin, hpre, hpost⟩ := applyRule1By_at within zeroDraws agents pos i a hi
  rw [hfin, applyRule1BodyBy_get within zeroDraws _ i a hat hs]
  constructor
  · rintro ⟨j, b, hji, hj, hb, hw⟩
    have hj1 := infected_stays _ _ hpre j b hj (ne_of_gt hb)
    have hscan : scanNeighboursBy within a i 0
        (forLoop i (applyRule1BodyBy within zeroDraws) (agents, pos)).1 = 1 :=
      (scanNeighboursBy_eq_one within a i _ 0).mpr ⟨j, b, hj1, by omega, hb, hw⟩
    rw [if_pos ⟨hscan, by rw [randomFloat_zeroDraws]; exact hp⟩]
  · intro hnone
    have hscan : ¬ scanNeighboursBy within a i 0
        (forLoop i (applyRule1BodyBy within zeroDraws) (agents, pos)).1 = 1 := by
      intro h
      obtain ⟨j, c, hj, hk, hc, hw⟩ := (scanNeighboursBy_eq_one within a i _ 0).mp h
      have hj1 := infected_stays _ _ hpost j c hj (ne_of_gt hc)
      exact hnone j c (by omega) hj1 hw hc
    rw [if_neg (fun h => hscan h.1)]

theorem zero_draws_contagion_witness :
    [sampleAgent 0 0 0, sampleAgent 1 (1 / 2) 0][0]? = some (sampleAgent 0 0 0) ∧
    (sampleAgent 0 0 0).status = 0 ∧ 0 ≤ (sampleAgent 0 0 0).p_con ∧
    (applyRule1By withinR zeroDraws [sampleAgent 0 0 0, sampleAgent 1 (1 / 2) 0] 0).1[0]?
      = some { sampleAgent 0 0 0 with status := 1 } :=
  have hp : 0 ≤ (sampleAgent 0 0 0).p_con := by norm_num [sampleAgent]
  ⟨rfl, rfl, hp,
    (zero_draws_contagion withinR [sampleAgent 0 0 0, sampleAgent 1 (1 / 2) 0] 0 0
      (sampleAgent 0 0 0) rfl rfl hp).1
      ⟨1, sampleAgent 1 (1 / 2) 0, by decide, rfl, by decide,
        by norm_num [withinR, distanceSq, sampleAgent, R]⟩⟩

/-- C5 (as stated) fails: with every draw equal to `0.0` and all contagion
probabilities positive, the Susceptible agent at index `1`, which stands next to an
Infected agent, is Infected after one pass of `applyRule1`. -/
theorem zero_draws_contagion_counterexample :
    (∀ a ∈ [sampleAgent 1 0 0, sampleAgent 0 0 0], 0 < a.p_con) ∧
    [sampleAgent 1 0 0, sampleAgent 0 0 0][1]? = some (sampleAgent 0 0 0) ∧
    (sampleAgent 0 0 0).status = 0 ∧
    (applyRule1 zeroDraws [sampleAgent 1 0 0, sampleAgent 0 0 0] 0).1[1]?
      = some (sampleAgent 1 0 0) ∧
    (sampleAgent 1 0 0).status = 1 := by
  refine ⟨?_, rfl, rfl, ?_, rfl⟩
  · intro a ha
    simp only [List.mem_cons, List.mem_singleton, List.not_mem_nil, or_false] at ha
    rcases ha with h | h <;> subst h <;> norm_num [sampleAgent]
  · simp [applyRule1, forLoop, List.range, List.range.loop, applyRule1Body, scanNeighbours,
      withinR, distanceSq, randomFloat, zeroDraws, sampleAgent, R, RAND_MAX]

/-! ## Small populations -/

/-- C6. With a population of exactly one agent, `applyRule1` leaves the population
(and the generator cursor) unchanged, for every agent state and draw sequence. -/
theorem single_agent_rule1 (draws : Nat → Nat) (a : Agent) (pos : Nat) :
    applyRule1 draws [a] pos = ([a], pos) := by
  simp [applyRule1, forLoop, List.range, List.range.loop, applyRule1Body, scanNeighbours]

/-- C7. Forced contagion: in a population of two agents, one Infected and one
Susceptible with contagion probability `1.0`, at distance at most `R`, one pass of
`applyRule1` makes the Susceptible agent Infected for every draw in `[0, 1]`, in
either agent order; the Infected agent is unchanged and one draw is consumed. -/
theorem forced_contagion (draws : Nat → Nat) (hd : UnitDraws draws) (a b : Agent) (pos : Nat)
    (ha : a.status = 1) (hb : b.status = 0) (hp : b.p_con = 1)
    (hr : distanceSq a b ≤ R * R) :
    applyRule1 draws [a, b] pos = ([a, { b with status := 1 }], pos + 1) ∧
    applyRule1 draws [b, a] pos = ([{ b with status := 1 }, a], pos + 1) := by
  have hw : withinR b a = true := by
    rw [withinR_comm]; simpa [withinR] using hr
  have hdraw : (randomFloat draws 0 1 pos).1 ≤ b.p_con := by
    rw [randomFloat_unit, hp]; exact (unit_fraction draws hd pos).2
  have hpos : (randomFloat draws 0 1 pos).2 = pos + 1 := rfl
  have ha0 : ¬ a.status = 0 := by rw [ha]; decide
  have ha1 : a.status > 0 := by rw [ha]; decide
  constructor
  · simp [applyRule1, forLoop, List.range, List.range.loop, applyRule1Body, scanNeighbours,
      ha0, ha1, hb, hw, hdraw, hpos]
  · simp [applyRule1, forLoop, List.range, List.range.loop, applyRule1Body, scanNeighbours,
      ha0, ha1, hb, hw, hdraw, hpos]

theorem forced_contagion_witness :
    UnitDraws zeroDraws ∧ (sampleAgent 1 0 0).status = 1 ∧
    ({ sampleAgent 0 (3 / 5) (4 / 5) with p_con := 1 } : Agent).status = 0 ∧
    ({ sampleAgent 0 (3 / 5) (4 / 5) with p_con := 1 } : Agent).p_con = 1 ∧
    distanceSq (sampleAgent 1 0 0) { sampleAgent 0 (3 / 5) (4 / 5) with p_con := 1 } ≤ R * R ∧
    applyRule1 zeroDraws [sampleAgent 1 0 0, { sampleAgent 0 (3 / 5) (4 / 5) with p_con := 1 }] 0
      = ([sampleAgent 1 0 0,
          { ({ sampleAgent 0 (3 / 5) (4 / 5) with p_con := 1 } : Agent) with status := 1 }], 1) :=
  have hd : UnitDraws zeroDraws := fun _ => Nat.zero_le _
  have hr : distanceSq (sampleAgent 1 0 0) { sampleAgent 0 (3 / 5) (4 / 5) with p_con := 1 }
      ≤ R * R := by norm_num [distanceSq, sampleAgent, R]
  ⟨hd, rfl, rfl, rfl, hr,
    (forced_contagion zeroDraws hd (sampleAgent 1 0 0)
      { sampleAgent 0 (3 / 5) (4 / 5) with p_con := 1 } 0 rfl rfl rfl hr).1⟩

/-! ## Statistics: closed forms -/

theorem seriesOf_length (days k : Nat) (f : Nat → Int) : (seriesOf days k f).length = days := by
  simp [seriesOf]

theorem seriesOf_get (days k : Nat) (f : Nat → Int) (d : Nat) :
    (seriesOf days k f)[d]? = if d < days then some (if d < k then f d else 0) else none := by
  unfold seriesOf
  by_cases h : d < days
  · simp [h, List.getElem?_range h]
  · simp [h, Nat.le_of_not_lt h]

theorem seriesOf_getD (days k : Nat) (f : Nat → Int) (d : Nat) :
    (seriesOf days k f).getD d 0 = if d < days ∧ d < k then f d else 0 := by
  rw [List.getD_eq_getElem?_getD, seriesOf_get]
  by_cases h : d < days <;> by_cases h1 : d < k <;> simp [h, h1]

theorem seriesOf_zero (days : Nat) (f : Nat → Int) :
    List.replicate days 0 = seriesOf days 0 f := by
  apply List.ext_getElem?
  intro d
  rw [seriesOf_get, List.getElem?_replicate]
  simp

theorem seriesOf_set (days k : Nat) (f : Nat → Int) :
    (seriesOf days k f).set k (f k) = seriesOf days (k + 1) f := by
  apply List.ext_getElem?
  intro d
  rw [List.getElem?_set, seriesOf_get, seriesOf_get, seriesOf_length]
  by_cases hkd : k = d
  · subst hkd
    by_cases h : k < days <;> simp [h]
  · by_cases h : d < days
    · have h1 : (d < k + 1) = (d < k) := by
        apply propext; constructor <;> intro h2 <;> omega
      simp [hkd, h, h1]
    · simp [hkd, h]

theorem seriesOf_const_zero_getD (days k d : Nat) :
    (seriesOf days k (fun _ => 0)).getD d 0 = 0 := by
  rw [seriesOf_getD]; simp

theorem statsAfter_succ (n days : Nat) (c : Nat → Counts) (k : Nat) :
    statsAfter n days c (k + 1) = updateStats n (statsAfter n days c k) (c k) k := by
  unfold statsAfter
  rw [forLoop_succ]

/-- Closed form of the six series and the three running totals after `k` days. -/
theorem statsAfter_closed (n days : Nat) (c : Nat → Counts) (k : Nat) :
    (statsAfter n days c k).daily_infected
      = seriesOf days k (fun d => everInfected c d - prevOf (everInfected c) d) ∧
    (statsAfter n days c k).daily_recovered = seriesOf days k (fun _ => 0) ∧
    (statsAfter n days c k).daily_deaths
      = seriesOf days k (fun d => (c d).deceased - prevOf (fun j => (c j).deceased) d) ∧
    (statsAfter n days c k).cumulative_infected = seriesOf days k (everInfected c) ∧
    (statsAfter n days c k).cumulative_recovered = seriesOf days k (fun _ => 0) ∧
    (statsAfter n days c k).cumulative_deaths = seriesOf days k (fun d => (c d).deceased) ∧
    (statsAfter n days c k).prev_total_infected = prevOf (everInfected c) k ∧
    (statsAfter n days c k).prev_total_recovered = 0 ∧
    (statsAfter n days c k).prev_total_deceased = prevOf (fun j => (c j).deceased) k := by
  induction k with
  | zero =>
    simp only [statsAfter, forLoop_zero, initStats]
    exact ⟨seriesOf_zero _ _, seriesOf_zero _ _, seriesOf_zero _ _, seriesOf_zero _ _,
      seriesOf_zero _ _, seriesOf_zero _ _, rfl, trivial, rfl⟩
  | succ k ih =>
    obtain ⟨h1, h2, h3, h4, h5, h6, h7, h8, h9⟩ := ih
    have htI : (c k).infected + (c k).quarantined + (c k).deceased
        + (statsAfter n days c k).cumulative_recovered.getD (if k > 0 then k - 1 else 0) 0
        = everInfected c k := by
      rw [h5, seriesOf_const_zero_getD]; simp [everInfected]
    have htR : (if k > 0 then (statsAfter n days c k).cumulative_recovered.getD (k - 1) 0 else 0)
        = (0 : Int) := by
      rw [h5, seriesOf_const_zero_getD]; simp
    have hp : ∀ f : Nat → Int, prevOf f (k + 1) = f k := by
      intro f; simp [prevOf]
    rw [statsAfter_succ]
    simp only [updateStats, htI, htR]
    simp only [h1, h2, h3, h4, h5, h6, h7, h8, h9, hp]
    refine ⟨?_, ?_, ?_, ?_, ?_, ?_, trivial, trivial, trivial⟩
    · exact seriesOf_set days k (fun d => everInfected c d - prevOf (everInfected c) d)
    · have := seriesOf_set days k (fun _ => (0 : Int))
      simpa using this
    · exact seriesOf_set days k
        (fun d => (c d).deceased - prevOf (fun j => (c j).deceased) d)
    · exact seriesOf_set days k (everInfected c)
    · exact seriesOf_set days k (fun _ => (0 : Int))
    · exact seriesOf_set days k (fun d => (c d).deceased)

/-! ## Statistics: milestones -/

theorem reportDay_sentinel : reportDay (-1) = -1 := by
  simp [reportDay]

theorem reportDay_day (d : Nat) : reportDay (d : Int) = (d : Int) + 1 := by
  have h : (d : Int) ≠ -1 := by omega
  simp [reportDay, h]

theorem firstCrossing_init (meets : Int → Bool) (series : List Int) :
    FirstCrossing meets series 0 (-1) :=
  Or.inl ⟨rfl, reportDay_sentinel, fun d hd => absurd hd (Nat.not_lt_zero d)⟩

theorem firstCrossing_step (meets : Int → Bool) (days k : Nat) (f : Nat → Int) (m : Int)
    (hk : k < days) (h : FirstCrossing meets (seriesOf days k f) k m) :
    FirstCrossing meets (seriesOf days (k + 1) f) (k + 1) (recordMilestone (meets (f k)) m k) := by
  have hold : ∀ d : Nat, d < k →
      (seriesOf days (k + 1) f).getD d 0 = (seriesOf days k f).getD d 0 := by
    intro d hd
    have h1 : d < days := by omega
    have h2 : d < k + 1 := by omega
    rw [seriesOf_getD, seriesOf_getD]; simp [h1, h2, hd]
  have hnew : (seriesOf days (k + 1) f).getD k 0 = f k := by
    rw [seriesOf_getD]; simp [hk]
  rcases h with ⟨hm, _, hnone⟩ | ⟨d, hm, hrep, hd, hmeet, hleast⟩
  · by_cases hv : meets (f k) = true
    · refine Or.inr ⟨k, ?_, ?_, Nat.lt_succ_self k, by rw [hnew]; exact hv, ?_⟩
      · simp [recordMilestone, hv, hm]
      · have : recordMilestone (meets (f k)) m k = (k : Int) := by
          simp [recordMilestone, hv, hm]
        rw [this]; exact reportDay_day k
      · intro j hj
        rw [hold j hj]; exact hnone j hj
    · have hv1 : meets (f k) = false := by simpa using hv
      have hrec : recordMilestone (meets (f k)) m k = -1 := by
        simp [recordMilestone, hv1, hm]
      refine Or.inl ⟨hrec, by rw [hrec]; exact reportDay_sentinel, ?_⟩
      intro j hj
      by_cases hjk : j = k
      · subst hjk; rw [hnew]; exact hv1
      · rw [hold j (by omega)]; exact hnone j (by omega)
  · have hne : m ≠ -1 := by rw [hm]; omega
    have hrec : recordMilestone (meets (f k)) m k = m := by
      simp [recordMilestone, hne]
    refine Or.inr ⟨d, by rw [hrec]; exact hm, by rw [hrec]; exact hrep, by omega, ?_, ?_⟩
    · rw [hold d hd]; exact hmeet
    · intro j hj
      rw [hold j (by omega)]; exact hleast j hj

/-- The nine milestones after `k` days are first-crossing days of their series. -/
theorem statsAfter_milestones (n days : Nat) (c : Nat → Counts) (k : Nat) (hk : k ≤ days) :
    FirstCrossing meetsFirst (seriesOf days k (everInfected c)) k
      (statsAfter n days c k).day_first_infected ∧
    FirstCrossing (meetsHalf n) (seriesOf days k (everInfected c)) k
      (statsAfter n days c k).day_half_infected ∧
    FirstCrossing (meetsAll n) (seriesOf days k (everInfected c)) k
      (statsAfter n days c k).day_all_infected ∧
    FirstCrossing meetsFirst (seriesOf days k (fun _ => 0)) k
      (statsAfter n days c k).day_first_recovered ∧
    FirstCrossing (meetsHalf n) (seriesOf days k (fun _ => 0)) k
      (statsAfter n days c k).day_half_recovered ∧
    FirstCrossing (meetsAll n) (seriesOf days k (fun _ => 0)) k
      (statsAfter n days c k).day_all_recovered ∧
    FirstCrossing meetsFirst (seriesOf days k (fun d => (c d).deceased)) k
      (statsAfter n days c k).day_first_death ∧
    FirstCrossing (meetsHalf n) (seriesOf days k (fun d => (c d).deceased)) k
      (statsAfter n days c k).day_half_deaths ∧
    FirstCrossing (meetsAll n) (seriesOf days k (fun d => (c d).deceased)) k
      (statsAfter n days c k).day_all_deaths := by
  induction k with
  | zero =>
    simp only [statsAfter, forLoop_zero, initStats]
    exact ⟨firstCrossing_init _ _, firstCrossing_init _ _, firstCrossing_init _ _,
      firstCrossing_init _ _, firstCrossing_init _ _, firstCrossing_init _ _,
      firstCrossing_init _ _, firstCrossing_init _ _, firstCrossing_init _ _⟩
  | succ k ih =>
    obtain ⟨m1, m2, m3, m4, m5, m6, m7, m8, m9⟩ := ih (Nat.le_of_succ_le hk)
    obtain ⟨_, _, _, _, h5, _, _, _, _⟩ := statsAfter_closed n days c k
    have hlt : k < days := hk
    have htI : (c k).infected + (c k).quarantined + (c k).deceased
        + (statsAfter n days c k).cumulative_recovered.getD (if k > 0 then k - 1 else 0) 0
        = everInfected c k := by
      rw [h5, seriesOf_const_zero_getD]; simp [everInfected]
    have htR : (if k > 0 then (statsAfter n days c k).cumulative_recovered.getD (k - 1) 0 else 0)
        = (0 : Int) := by
      rw [h5, seriesOf_const_zero_getD]; simp
    rw [statsAfter_succ]
    simp only [updateStats, htI, htR]
    exact ⟨firstCrossing_step meetsFirst days k _ _ hlt m1,
      firstCrossing_step (meetsHalf n) days k _ _ hlt m2,
      firstCrossing_step (meetsAll n) days k _ _ hlt m3,
      firstCrossing_step meetsFirst days k (fun _ => 0) _ hlt m4,
      firstCrossing_step (meetsHalf n) days k (fun _ => 0) _ hlt m5,
      firstCrossing_step (meetsAll n) days k (fun _ => 0) _ hlt m6,
      firstCrossing_step meetsFirst days k (fun d => (c d).deceased) _ hlt m7,
      firstCrossing_step (meetsHalf n) days k (fun d => (c d).deceased) _ hlt m8,
      firstCrossing_step (meetsAll n) days k (fun d => (c d).deceased) _ hlt m9⟩

/-! ## Statistics of a run -/

theorem simulateDays_succ (draws : Nat → Nat) (days movs k : Nat) (mem : List Agent)
    (pos : Nat) :
    simulateDays draws days movs (k + 1) mem pos
      = dayBody draws movs (simulateDays draws days movs k mem pos) k := by
  unfold simulateDays
  rw [forLoop_succ]

theorem simulateDays_stats (draws : Nat → Nat) (days movs k : Nat) (mem : List Agent)
    (pos : Nat) :
    (simulateDays draws days movs k mem pos).stats
      = statsAfter mem.length days (dayCounts draws days movs mem pos) k := by
  induction k with
  | zero => simp [simulateDays, statsAfter, forLoop_zero, startSim]
  | succ k ih =>
    have hlen := (simulateDays_valid draws days movs (k + 1) mem pos).1
    have hc : dayCounts draws days movs mem pos k
        = countAgentsByStatus (simulateDays draws days movs (k + 1) mem pos).agents := rfl
    rw [statsAfter_succ, ← ih, hc, ← hlen, simulateDays_succ]
    rfl

theorem runSimulation_stats (draws : Nat → Nat) (mem : List Agent) (pos : Nat) :
    (runSimulation draws mem pos).stats
      = statsAfter mem.length D_MAX (dayCounts draws D_MAX M_MAX mem pos) D_MAX :=
  simulateDays_stats draws D_MAX M_MAX D_MAX mem pos

theorem count_fold_nonneg (l : List Agent) (c : Counts)
    (h : 0 ≤ c.infected ∧ 0 ≤ c.quarantined ∧ 0 ≤ c.deceased) :
    0 ≤ (l.foldl countAgentsBody c).infected ∧ 0 ≤ (l.foldl countAgentsBody c).quarantined ∧
      0 ≤ (l.foldl countAgentsBody c).deceased := by
  induction l generalizing c with
  | nil => simpa using h
  | cons a l ih =>
    simp only [List.foldl_cons]
    apply ih
    obtain ⟨h1, h2, h3⟩ := h
    unfold countAgentsBody
    split_ifs
    · exact ⟨by dsimp only; omega, h2, h3⟩
    · exact ⟨h1, by dsimp only; omega, h3⟩
    · exact ⟨h1, h2, by dsimp only; omega⟩
    · exact ⟨h1, h2, h3⟩

theorem countAgentsByStatus_nonneg (agents : List Agent) :
    0 ≤ (countAgentsByStatus agents).infected ∧ 0 ≤ (countAgentsByStatus agents).quarantined ∧
      0 ≤ (countAgentsByStatus agents).deceased :=
  count_fold_nonneg agents _ ⟨le_rfl, le_rfl, le_rfl⟩

theorem everInfected_dayCounts_nonneg (draws : Nat → Nat) (days movs : Nat) (mem : List Agent)
    (pos d : Nat) : 0 ≤ everInfected (dayCounts draws days movs mem pos) d := by
  obtain ⟨h1, h2, h3⟩ :=
    countAgentsByStatus_nonneg (simulateDays draws days movs (d + 1) mem pos).agents
  unfold everInfected dayCounts
  omega

/-- C8. Milestones are first-crossing days: at the end of `runSimulation` each of the
nine milestones is, for its cumulative series and threshold (`> 0`, `>= N/2`, `>= N`),
either the sentinel `-1` (reported `-1`) with no day of the horizon meeting the
threshold, or the least day index meeting it (reported as index `+ 1`).  In
particular, if the first-infected milestone is day `d` then `cumulative_infected[d] > 0`
and `cumulative_infected[k] = 0` for every earlier day `k < d`. -/
theorem milestones_first_crossing (draws : Nat → Nat) (mem : List Agent) (pos : Nat) :
    FirstCrossing meetsFirst (runSimulation draws mem pos).stats.cumulative_infected D_MAX
      (runSimulation draws mem pos).stats.day_first_infected ∧
    FirstCrossing (meetsHalf mem.length) (runSimulation draws mem pos).stats.cumulative_infected
      D_MAX (runSimulation draws mem pos).stats.day_half_infected ∧
    FirstCrossing (meetsAll mem.length) (runSimulation draws mem pos).stats.cumulative_infected
      D_MAX (runSimulation draws mem pos).stats.day_all_infected ∧
    FirstCrossing meetsFirst (runSimulation draws mem pos).stats.cumulative_recovered D_MAX
      (runSimulation draws mem pos).stats.day_first_recovered ∧
    FirstCrossing (meetsHalf mem.length) (runSimulation draws mem pos).stats.cumulative_recovered
      D_MAX (runSimulation draws mem pos).stats.day_half_recovered ∧
    FirstCrossing (meetsAll mem.length) (runSimulation draws mem pos).stats.cumulative_recovered
      D_MAX (runSimulation draws mem pos).stats.day_all_recovered ∧
    FirstCrossing meetsFirst (runSimulation draws mem pos).stats.cumulative_deaths D_MAX
      (runSimulation draws mem pos).stats.day_first_death ∧
    FirstCrossing (meetsHalf mem.length) (runSimulation draws mem pos).stats.cumulative_deaths
      D_MAX (runSimulation draws mem pos).stats.day_half_deaths ∧
    FirstCrossing (meetsAll mem.length) (runSimulation draws mem pos).stats.cumulative_deaths
      D_MAX (runSimulation draws mem pos).stats.day_all_deaths ∧
    (∀ d : Nat, (runSimulation draws mem pos).stats.day_first_infected = (d : Int) →
      d < D_MAX ∧ (runSimulation draws mem pos).stats.cumulative_infected.getD d 0 > 0 ∧
      ∀ k : Nat, k < d →
        (runSimulation draws mem pos).stats.cumulative_infected.getD k 0 = 0) := by
  obtain ⟨_, _, _, h4, h5, h6, _, _, _⟩ :=
    statsAfter_closed mem.length D_MAX (dayCounts draws D_MAX M_MAX mem pos) D_MAX
  obtain ⟨m1, m2, m3, m4, m5, m6, m7, m8, m9⟩ :=
    statsAfter_milestones mem.length D_MAX (dayCounts draws D_MAX M_MAX mem pos) D_MAX le_rfl
  rw [runSimulation_stats, h4, h5, h6]
  refine ⟨m1, m2, m3, m4, m5, m6, m7, m8, m9, ?_⟩
  intro d hd
  rcases m1 with ⟨hm, _, _⟩ | ⟨e, hm, _, he, hmeet, hleast⟩
  · rw [hm] at hd; omega
  · have hde : e = d := by rw [hm] at hd; exact_mod_cast hd
    subst hde
    refine ⟨he, by simpa [meetsFirst] using hmeet, fun k hk => ?_⟩
    have hle := hleast k hk
    have hnn := everInfected_dayCounts_nonneg draws D_MAX M_MAX mem pos k
    have hk1 : k < D_MAX := by omega
    rw [seriesOf_getD] at hle ⊢
    simp only [hk1, and_self, if_true, meetsFirst, decide_eq_false_iff_not, not_lt] at hle ⊢
    omega

/-- Day `0` of the run of a single sample agent under zero draws: the agent is
infected by Rule 3 and still incubating at the end of the day. -/
theorem sample_run_day0 :
    dayCounts zeroDraws D_MAX M_MAX [sampleAgent 0 0 0] 0 0
      = { infected := 1, quarantined := 0, deceased := 0 } := by
  norm_num [dayCounts, simulateDays, startSim, dayBody, initializeAgents, initializeAgentsBody,
    truncToInt, countAgentsByStatus, countAgentsBody,
    dailyCycle, M_MAX, movementBody, forLoop, List.range, List.range.loop, applyRule1,
    applyRule2, applyRule3, applyRule4, applyRule5, applyRule1Body, applyRule2Body,
    applyRule3Body, applyRule4Body, applyRule5Body, scanNeighbours, randomFloat, zeroDraws,
    P, Q, L_MAX, RAND_MAX, f0_02, f0_03, f0_007, f0_07, f0_3, f0_5, f0_7, f0_9, f6_99]

theorem milestones_first_crossing_witness :
    (runSimulation zeroDraws [sampleAgent 0 0 0] 0).stats.day_first_infected = ((0 : Nat) : Int) ∧
    (runSimulation zeroDraws [sampleAgent 0 0 0] 0).stats.cumulative_infected.getD 0 0 > 0 := by
  have hc : (runSimulation zeroDraws [sampleAgent 0 0 0] 0).stats.cumulative_infected.getD 0 0
      = 1 := by
    rw [runSimulation_stats, (statsAfter_closed _ _ _ _).2.2.2.1, seriesOf_getD]
    simp only [everInfected, sample_run_day0]
    simp [D_MAX]
  have h := milestones_first_crossing zeroDraws [sampleAgent 0 0 0] 0
  have hm : (runSimulation zeroDraws [sampleAgent 0 0 0] 0).stats.day_first_infected
      = ((0 : Nat) : Int) := by
    rcases h.1 with ⟨_, _, hnone⟩ | ⟨d, hm, _, _, _, hleast⟩
    · have h0 := hnone 0 (by decide)
      rw [hc] at h0
      exact absurd h0 (by decide)
    · cases d with
      | zero => exact hm
      | succ d =>
        have h0 := hleast 0 (Nat.succ_pos d)
        rw [hc] at h0
        exact absurd h0 (by decide)
  exact ⟨hm, (h.2.2.2.2.2.2.2.2.2 0 hm).2.1⟩

theorem seriesOf_take_sum (days k : Nat) (f : Nat → Int) (hk : k ≤ days) (m : Nat)
    (hm : m ≤ k) :
    ((seriesOf days k (fun j => f j - prevOf f j)).take m).sum = prevOf f m := by
  induction m with
  | zero => simp [prevOf]
  | succ m ih =>
    have h1 : m < days := by omega
    have h2 : m < k := by omega
    rw [List.take_succ, List.sum_append, ih (by omega), seriesOf_get]
    simp [h1, h2, prevOf]

/-- C9. Daily record arithmetic of `runSimulation`: for every day `d` of the horizon,
with `c` the status counts of that day, `cumulative_infected[d]` is
`infected + quarantined + deceased + cumulative_recovered[d-1]` (previous value `0`
on day `0`), `cumulative_deaths[d]` is `deceased`, each daily delta is the day's
cumulative value minus the previous day's (`0` on day `0`), and the deltas up to
day `d` sum to the cumulative value of day `d`. -/
theorem daily_record_arithmetic (draws : Nat → Nat) (mem : List Agent) (pos d : Nat)
    (hd : d < D_MAX) :
    (runSimulation draws mem pos).stats.cumulative_infected[d]?
      = some ((dayCounts draws D_MAX M_MAX mem pos d).infected
          + (dayCounts draws D_MAX M_MAX mem pos d).quarantined
          + (dayCounts draws D_MAX M_MAX mem pos d).deceased
          + (if d = 0 then 0
             else (runSimulation draws mem pos).stats.cumulative_recovered.getD (d - 1) 0)) ∧
    (runSimulation draws mem pos).stats.cumulative_deaths[d]?
      = some (dayCounts draws D_MAX M_MAX mem pos d).deceased ∧
    (runSimulation draws mem pos).stats.daily_infected[d]?
      = some ((runSimulation draws mem pos).stats.cumulative_infected.getD d 0
          - (if d = 0 then 0
             else (runSimulation draws mem pos).stats.cumulative_infected.getD (d - 1) 0)) ∧
    (runSimulation draws mem pos).stats.daily_recovered[d]?
      = some ((runSimulation draws mem pos).stats.cumulative_recovered.getD d 0
          - (if d = 0 then 0
             else (runSimulation draws mem pos).stats.cumulative_recovered.getD (d - 1) 0)) ∧
    (runSimulation draws mem pos).stats.daily_deaths[d]?
      = some ((runSimulation draws mem pos).stats.cumulative_deaths.getD d 0
          - (if d = 0 then 0
             else (runSimulation draws mem pos).stats.cumulative_deaths.getD (d - 1) 0)) ∧
    ((runSimulation draws mem pos).stats.daily_infected.take (d + 1)).sum
      = (runSimulation draws mem pos).stats.cumulative_infected.getD d 0 ∧
    ((runSimulation draws mem pos).stats.daily_recovered.take (d + 1)).sum
      = (runSimulation draws mem pos).stats.cumulative_recovered.getD d 0 ∧
    ((runSimulation draws mem pos).stats.daily_deaths.take (d + 1)).sum
      = (runSimulation draws mem pos).stats.cumulative_deaths.getD d 0 := by
  obtain ⟨h1, h2, h3, h4, h5, h6, _, _, _⟩ :=
    statsAfter_closed mem.length D_MAX (dayCounts draws D_MAX M_MAX mem pos) D_MAX
  have hd1 : d - 1 < D_MAX := by omega
  have hsumI := seriesOf_take_sum D_MAX D_MAX (everInfected (dayCounts draws D_MAX M_MAX mem pos))
    le_rfl (d + 1) hd
  have hsumD := seriesOf_take_sum D_MAX D_MAX
    (fun j => (dayCounts draws D_MAX M_MAX mem pos j).deceased) le_rfl (d + 1) hd
  have hsumR := seriesOf_take_sum D_MAX D_MAX (fun _ => (0 : Int)) le_rfl (d + 1) hd
  have hzero : (fun j : Nat => (0 : Int) - prevOf (fun _ => (0 : Int)) j) = fun _ => 0 := by
    funext j; simp [prevOf]
  rw [hzero] at hsumR
  rw [runSimulation_stats, h1, h2, h3, h4, h5, h6, hsumI, hsumD, hsumR]
  simp only [seriesOf_get, seriesOf_getD, hd, hd1, and_self, if_true]
  refine ⟨?_, trivial, ?_, ?_, ?_, ?_, ?_, ?_⟩
  · by_cases h0 : d = 0 <;> simp [h0, everInfected]
  · by_cases h0 : d = 0 <;> simp [h0, prevOf]
  · by_cases h0 : d = 0 <;> simp [h0]
  · by_cases h0 : d = 0 <;> simp [h0, prevOf]
  · simp [prevOf]
  · simp [prevOf]
  · simp [prevOf]

theorem daily_record_arithmetic_witness :
    0 < D_MAX ∧
    (runSimulation zeroDraws [sampleAgent 0 0 0] 0).stats.cumulative_deaths[0]?
      = some (dayCounts zeroDraws D_MAX M_MAX [sampleAgent 0 0 0] 0 0).deceased :=
  ⟨by decide, (daily_record_arithmetic zeroDraws [sampleAgent 0 0 0] 0 0 (by decide)).2.1⟩

theorem firstCrossing_never (meets : Int → Bool) (days k : Nat) (m : Int)
    (h0 : meets 0 = false)
    (h : FirstCrossing meets (seriesOf days k (fun _ => 0)) k m) : m = -1 := by
  rcases h with ⟨hm, _, _⟩ | ⟨d, _, _, _, hmeet, _⟩
  · exact hm
  · rw [seriesOf_const_zero_getD, h0] at hmeet
    exact absurd hmeet (by decide)

/-- C10. The cumulative-recovered series only copies the previous day's value: in
every run of `runSimulation` (population of at least two agents, as with `N = 1024`)
and on every day `d`, `cumulative_recovered[d]` equals `cumulative_recovered[d-1]`
(`0` on day `0`), hence is `0`; `daily_recovered[d]` is `0`; the three recovered
milestones stay at the sentinel `-1`; and `cumulative_infected[d]` is
`infected + quarantined + deceased`. -/
theorem recovered_series_stuck (draws : Nat → Nat) (mem : List Agent) (pos d : Nat)
    (hd : d < D_MAX) (hn : 2 ≤ mem.length) :
    (runSimulation draws mem pos).stats.cumulative_recovered[d]?
      = some (if d = 0 then 0
              else (runSimulation draws mem pos).stats.cumulative_recovered.getD (d - 1) 0) ∧
    (runSimulation draws mem pos).stats.cumulative_recovered[d]? = some 0 ∧
    (runSimulation draws mem pos).stats.daily_recovered[d]? = some 0 ∧
    (runSimulation draws mem pos).stats.day_first_recovered = -1 ∧
    (runSimulation draws mem pos).stats.day_half_recovered = -1 ∧
    (runSimulation draws mem pos).stats.day_all_recovered = -1 ∧
    reportDay (runSimulation draws mem pos).stats.day_first_recovered = -1 ∧
    reportDay (runSimulation draws mem pos).stats.day_half_recovered = -1 ∧
    reportDay (runSimulation draws mem pos).stats.day_all_recovered = -1 ∧
    (runSimulation draws mem pos).stats.cumulative_infected[d]?
      = some ((dayCounts draws D_MAX M_MAX mem pos d).infected
          + (dayCounts draws D_MAX M_MAX mem pos d).quarantined
          + (dayCounts draws D_MAX M_MAX mem pos d).deceased) := by
  obtain ⟨_, h2, _, h4, h5, _, _, _, _⟩ :=
    statsAfter_closed mem.length D_MAX (dayCounts draws D_MAX M_MAX mem pos) D_MAX
  obtain ⟨_, _, _, m4, m5, m6, _, _, _⟩ :=
    statsAfter_milestones mem.length D_MAX (dayCounts draws D_MAX M_MAX mem pos) D_MAX le_rfl
  have hhalf : meetsHalf mem.length 0 = false := by
    simp only [meetsHalf, decide_eq_false_iff_not, ge_iff_le, not_le]
    omega
  have hall : meetsAll mem.length 0 = false := by
    simp only [meetsAll, decide_eq_false_iff_not, ge_iff_le, not_le]
    omega
  have e4 := firstCrossing_never meetsFirst D_MAX D_MAX _ (by decide) m4
  have e5 := firstCrossing_never (meetsHalf mem.length) D_MAX D_MAX _ hhalf m5
  have e6 := firstCrossing_never (meetsAll mem.length) D_MAX D_MAX _ hall m6
  rw [runSimulation_stats, e4, e5, e6, h2, h4, h5]
  simp only [seriesOf_get, seriesOf_const_zero_getD, hd, if_true, ite_self]
  exact ⟨trivial, trivial, trivial, trivial, trivial, trivial, reportDay_sentinel,
    reportDay_sentinel, reportDay_sentinel, rfl⟩

theorem recovered_series_stuck_witness :
    0 < D_MAX ∧ 2 ≤ [sampleAgent 0 0 0, sampleAgent 0 1 1].length ∧
    (runSimulation zeroDraws [sampleAgent 0 0 0, sampleAgent 0 1 1] 0).stats.cumulative_recovered[0]?
      = some 0 ∧
    (runSimulation zeroDraws [sampleAgent 0 0 0, sampleAgent 0 1 1] 0).stats.day_half_recovered
      = -1 :=
  have h := recovered_series_stuck zeroDraws [sampleAgent 0 0 0, sampleAgent 0 1 1] 0 0
    (by decide) (by decide)
  ⟨by decide, by decide, h.2.1, h.2.2.2.2.1⟩

/-! ## Rule 4 agent by agent -/

theorem forLoop_get_before_list (rel : Agent → Agent → Prop)
    (body : List Agent → Nat → List Agent)
    (hbody : ∀ l j, Step rel l (body l j) j) (k i : Nat) (hki : k ≤ i)
    (init : List Agent) : (forLoop k body init)[i]? = init[i]? := by
  apply forLoop_inv (fun l : List Agent => l[i]? = init[i]?) body k init rfl
  intro l j hj hl
  rw [(hbody l j).get_ne i (by omega), hl]

theorem forLoop_get_after_list (rel : Agent → Agent → Prop)
    (body : List Agent → Nat → List Agent)
    (hbody : ∀ l j, Step rel l (body l j) j) (n i : Nat) (hi : i < n)
    (init : List Agent) :
    (forLoop n body init)[i]? = (body (forLoop i body init) i)[i]? := by
  rw [forLoop_split body (i + 1) n hi init, forLoop_succ]
  apply foldl_inv
    (fun l : List Agent => l[i]? = (body (forLoop i body init) i)[i]?) body _ _ rfl
  intro l j hj hl
  have hj1 : i + 1 ≤ j := (List.mem_range'_1.mp hj).1
  rw [(hbody l j).get_ne i (by omega), hl]

theorem set_self_of_get (l : List Agent) (i : Nat) (a : Agent) (h : l[i]? = some a) :
    l.set i a = l := by
  apply List.ext_getElem?
  intro j
  by_cases hij : i = j
  · subst hij
    rw [List.getElem?_set_self (List.getElem?_eq_some_iff.mp h).1, h]
  · rw [List.getElem?_set_ne hij]

theorem applyRule4Body_eq (l : List Agent) (i : Nat) (a : Agent) (h : l[i]? = some a) :
    applyRule4Body l i = l.set i (progressAgent a) := by
  simp only [applyRule4Body, h, progressAgent]
  split_ifs
  · rfl
  · rfl
  · rfl
  · rfl
  · exact (set_self_of_get l i a h).symm

theorem applyRule4_get (agents : List Agent) (i : Nat) (a : Agent) (h : agents[i]? = some a) :
    (applyRule4 agents)[i]? = some (progressAgent a) := by
  have hlt : i < agents.length := (List.getElem?_eq_some_iff.mp h).1
  have hpre : (forLoop i applyRule4Body agents)[i]? = some a := by
    rw [forLoop_get_before_list progressRel _ applyRule4Body_step i i le_rfl]; exact h
  have hlt1 : i < (forLoop i applyRule4Body agents).length :=
    (List.getElem?_eq_some_iff.mp hpre).1
  unfold applyRule4
  rw [forLoop_get_after_list progressRel _ applyRule4Body_step _ i hlt,
    applyRule4Body_eq _ i a hpre, List.getElem?_set_self hlt1]

theorem applyRule4_eq_map (agents : List Agent) :
    applyRule4 agents = agents.map progressAgent := by
  apply List.ext_getElem?
  intro i
  cases h : agents[i]? with
  | none =>
    have hlen : agents.length ≤ i := List.getElem?_eq_none_iff.mp h
    have h1 : (applyRule4 agents).length ≤ i := by rw [(applyRule4_evolves agents).1]; exact hlen
    simp [List.getElem?_eq_none h1, h]
  | some a => simp [applyRule4_get agents i a h, h]

theorem applyRule4_iterate (agents : List Agent) (m : Nat) :
    applyRule4^[m] agents = agents.map (progressAgent^[m]) := by
  induction m with
  | zero => simp
  | succ m ih =>
    rw [Function.iterate_succ_apply', ih, applyRule4_eq_map, List.map_map]
    apply List.map_congr_left
    intro a _
    simp [Function.iterate_succ_apply']

theorem applyRule4_iterate_get (agents : List Agent) (m i : Nat) (a : Agent)
    (h : agents[i]? = some a) : (applyRule4^[m] agents)[i]? = some (progressAgent^[m] a) := by
  rw [applyRule4_iterate]; simp [h]

theorem progressAgent_incubating (a : Agent) (m : Nat) (hs : a.status > 0)
    (hm : (m : Int) < a.t_inc) :
    progressAgent^[m] a = { a with t_inc := a.t_inc - m } := by
  induction m with
  | zero => simp
  | succ m ih =>
    have hm1 : (m : Int) < a.t_inc := by push_cast at hm; omega
    rw [Function.iterate_succ_apply', ih hm1]
    have h1 : ¬ a.t_inc - (m : Int) - 1 ≤ 0 := by push_cast at hm; omega
    have h2 : a.t_inc - (m : Int) - 1 = a.t_inc - ((m + 1 : Nat) : Int) := by
      push_cast; ring
    simp only [progressAgent, hs, if_true, h1, if_false]
    rw [h2]

theorem progressAgent_quarantined_at (a : Agent) (k : Nat) (hs : a.status > 0)
    (hk : a.t_inc = ((k + 1 : Nat) : Int)) :
    progressAgent^[k + 1] a = { a with t_inc := 0, status := -1 } := by
  rw [Function.iterate_succ_apply', progressAgent_incubating a k hs (by rw [hk]; push_cast; omega)]
  have h1 : a.t_inc - (k : Int) - 1 ≤ 0 := by rw [hk]; push_cast; omega
  have h2 : a.t_inc - (k : Int) - 1 = 0 := by rw [hk]; push_cast; ring
  simp only [progressAgent, hs, if_true, h1]
  rw [h2]

theorem progressAgent_recovering (a : Agent) (m : Nat) (hs : a.status = -1)
    (hm : (m : Int) < a.t_rec) :
    progressAgent^[m] a = { a with t_rec := a.t_rec - m } := by
  induction m with
  | zero => simp
  | succ m ih =>
    have hm1 : (m : Int) < a.t_rec := by push_cast at hm; omega
    rw [Function.iterate_succ_apply', ih hm1]
    have h0 : ¬ a.status > 0 := by rw [hs]; decide
    have hq : (a.status = -1) = True := eq_true hs
    have h1 : ¬ a.t_rec - (m : Int) - 1 ≤ 0 := by push_cast at hm; omega
    have h2 : a.t_rec - (m : Int) - 1 = a.t_rec - ((m + 1 : Nat) : Int) := by
      push_cast; ring
    simp only [progressAgent, h0, if_false, hq, if_true, h1]
    rw [h2]

theorem progressAgent_recovered_at (a : Agent) (k : Nat) (hs : a.status = -1)
    (hk : a.t_rec = ((k + 1 : Nat) : Int)) :
    progressAgent^[k + 1] a = { a with status := 0, t_rec := 14 } := by
  rw [Function.iterate_succ_apply', progressAgent_recovering a k hs (by rw [hk]; push_cast; omega)]
  have h0 : ¬ a.status > 0 := by rw [hs]; decide
  have hq : (a.status = -1) = True := eq_true hs
  have h1 : a.t_rec - (k : Int) - 1 ≤ 0 := by rw [hk]; push_cast; omega
  simp only [progressAgent, h0, if_false, hq, if_true, h1]

theorem progressAgent_idle (a : Agent) (h0 : ¬ a.status > 0) (h1 : a.status ≠ -1) :
    progressAgent a = a := by
  simp [progressAgent, h0, h1]

theorem progressAgent_recovers (a : Agent) (hq : a.status = -1) (ht : a.t_rec ≤ 1) :
    progressAgent a = { a with status := 0, t_rec := 14 } := by
  have h0 : ¬ a.status > 0 := by rw [hq]; decide
  have hqt : (a.status = -1) = True := eq_true hq
  have h1 : a.t_rec - 1 ≤ 0 := by omega
  simp only [progressAgent, h0, if_false, hqt, if_true, h1]

theorem applyRule5_fixes (draws : Nat → Nat) (agents : List Agent) (pos i : Nat) (a : Agent)
    (hi : agents[i]? = some a) (hs : a.status ≠ -1) :
    (applyRule5 draws agents pos).1[i]? = some a := by
  obtain ⟨b, hb, hba⟩ := (applyRule5_evolves draws agents pos).pred (fun c => c = a)
    (dieRel_fixes a hs) i a hi rfl
  rw [hb, hba]

/-- C12. Same-day recover-and-die is impossible: an agent that is Quarantined with
`t_rec <= 1` before the end-of-day rules is, after `applyRule4` followed by
`applyRule5`, Susceptible (status `0`) with `t_rec` reset to `14` and otherwise
unchanged, so never Deceased, for every population and every draw sequence. -/
theorem no_same_day_recovery_and_death (draws : Nat → Nat) (agents : List Agent)
    (pos i : Nat) (a : Agent) (hi : agents[i]? = some a) (hq : a.status = -1)
    (ht : a.t_rec ≤ 1) :
    (applyRule4 agents)[i]? = some { a with status := 0, t_rec := 14 } ∧
    (applyRule5 draws (applyRule4 agents) pos).1[i]? = some { a with status := 0, t_rec := 14 } ∧
    (∀ b, (applyRule5 draws (applyRule4 agents) pos).1[i]? = some b → b.status ≠ -2) := by
  have h4 : (applyRule4 agents)[i]? = some { a with status := 0, t_rec := 14 } := by
    rw [applyRule4_get agents i a hi, progressAgent_recovers a hq ht]
  have h5 := applyRule5_fixes draws (applyRule4 agents) pos i _ h4
    (by show (0 : Int) ≠ -1; decide)
  refine ⟨h4, h5, fun b hb => ?_⟩
  rw [h5] at hb
  rw [← Option.some.inj hb]
  show (0 : Int) ≠ -2
  decide

theorem no_same_day_recovery_and_death_witness :
    [{ sampleAgent (-1) 0 0 with t_rec := 1 }][0]? = some { sampleAgent (-1) 0 0 with t_rec := 1 } ∧
    ({ sampleAgent (-1) 0 0 with t_rec := 1 } : Agent).status = -1 ∧
    ({ sampleAgent (-1) 0 0 with t_rec := 1 } : Agent).t_rec ≤ 1 ∧
    (applyRule5 zeroDraws (applyRule4 [{ sampleAgent (-1) 0 0 with t_rec := 1 }]) 0).1[0]?
      = some { ({ sampleAgent (-1) 0 0 with t_rec := 1 } : Agent) with status := 0, t_rec := 14 } :=
  ⟨rfl, rfl, by decide,
    (no_same_day_recovery_and_death zeroDraws [{ sampleAgent (-1) 0 0 with t_rec := 1 }] 0 0
      { sampleAgent (-1) 0 0 with t_rec := 1 } rfl rfl (by decide)).2.1⟩

/-- C18. Countdown timing of Rule 4: an Infected agent with incubation counter
`t_inc = k >= 1` is still Infected (counter `k - m`) after `m < k` applications of
`applyRule4` and is Quarantined (counter `0`) after exactly the `k`-th; a Quarantined
agent with recovery counter `t_rec = k >= 1` is still Quarantined (counter `k - m`)
after `m < k` applications and after exactly the `k`-th is Susceptible with `t_rec`
reset to `14`; agents with status `0` or `-2` are left unchanged by `applyRule4`. -/
theorem rule4_countdown (agents : List Agent) (i : Nat) (a : Agent)
    (hi : agents[i]? = some a) :
    (∀ k : Nat, 1 ≤ k → a.status = 1 → a.t_inc = (k : Int) →
      (∀ m : Nat, m < k →
        (applyRule4^[m] agents)[i]? = some { a with t_inc := (k : Int) - m, status := 1 }) ∧
      (applyRule4^[k] agents)[i]? = some { a with t_inc := 0, status := -1 }) ∧
    (∀ k : Nat, 1 ≤ k → a.status = -1 → a.t_rec = (k : Int) →
      (∀ m : Nat, m < k →
        (applyRule4^[m] agents)[i]? = some { a with t_rec := (k : Int) - m, status := -1 }) ∧
      (applyRule4^[k] agents)[i]? = some { a with status := 0, t_rec := 14 }) ∧
    (a.status = 0 ∨ a.status = -2 → (applyRule4 agents)[i]? = some a) := by
  refine ⟨?_, ?_, ?_⟩
  · intro k hk hs ht
    have hpos : a.status > 0 := by rw [hs]; decide
    constructor
    · intro m hm
      rw [applyRule4_iterate_get agents m i a hi,
        progressAgent_incubating a m hpos (by rw [ht]; exact_mod_cast hm), ht, ← hs]
    · obtain ⟨j, rfl⟩ : ∃ j, k = j + 1 := ⟨k - 1, by omega⟩
      rw [applyRule4_iterate_get agents (j + 1) i a hi,
        progressAgent_quarantined_at a j hpos ht]
  · intro k hk hs ht
    constructor
    · intro m hm
      rw [applyRule4_iterate_get agents m i a hi,
        progressAgent_recovering a m hs (by rw [ht]; exact_mod_cast hm), ht, ← hs]
    · obtain ⟨j, rfl⟩ : ∃ j, k = j + 1 := ⟨k - 1, by omega⟩
      rw [applyRule4_iterate_get agents (j + 1) i a hi,
        progressAgent_recovered_at a j hs ht]
  · intro hs
    rw [applyRule4_get agents i a hi, progressAgent_idle a]
    · rcases hs with h | h <;> rw [h] <;> decide
    · rcases hs with h | h <;> rw [h] <;> decide

theorem rule4_countdown_witness :
    [sampleAgent 1 0 0][0]? = some (sampleAgent 1 0 0) ∧
    (applyRule4^[4] [sampleAgent 1 0 0])[0]?
      = some { sampleAgent 1 0 0 with t_inc := ((5 : Nat) : Int) - (4 : Nat), status := 1 } ∧
    (applyRule4^[5] [sampleAgent 1 0 0])[0]?
      = some { sampleAgent 1 0 0 with t_inc := 0, status := -1 } :=
  have h := (rule4_countdown [sampleAgent 1 0 0] 0 (sampleAgent 1 0 0) rfl).1 5 (by decide)
    rfl rfl
  ⟨rfl, h.1 4 (by decide), h.2⟩

/-! ## The incubation counter -/

theorem ruleRel_t_inc (draws : Nat → Nat) (a b : Agent) (h : ruleRel draws a b) :
    b.t_inc ≤ a.t_inc := by
  rcases h with h | h | h | h
  · rw [h.2]
  · obtain ⟨_, x1, y1, hb, _⟩ := h
    rw [hb]
  · rcases h with ⟨_, hb⟩ | ⟨_, hb⟩
    · rw [hb]; dsimp only; omega
    · rw [hb]; split_ifs <;> exact le_rfl
  · rw [h.2]

theorem ruleRel_quarantine (draws : Nat → Nat) (a b : Agent) (h : ruleRel draws a b)
    (ha : a.status = -1 ∨ a.status = -2 → a.t_inc ≤ 0) :
    b.status = -1 ∨ b.status = -2 → b.t_inc ≤ 0 := by
  rcases h with h | h | h | h
  · rw [h.2]
    intro hb
    dsimp only at hb
    rcases hb with hb | hb <;> omega
  · obtain ⟨_, x1, y1, hb, _⟩ := h
    rw [hb]; exact ha
  · rcases h with ⟨hs, hb⟩ | ⟨hs, hb⟩
    · rw [hb]
      dsimp only
      split_ifs with h1
      · intro _; exact h1
      · intro hq
        rcases hq with hq | hq <;> omega
    · rw [hb]
      split_ifs with h1
      · intro hq
        simp at hq
      · intro _; exact ha (Or.inl hs)
  · rw [h.2]
    intro _
    exact ha (Or.inl h.1)

theorem dailyCycle_evolves (draws : Nat → Nat) (movs : Nat) (st : List Agent × Nat) :
    Evolves (ruleRel draws) st.1 (dailyCycle draws movs st).1 := by
  have h1 : ∀ l p, Evolves (ruleRel draws) l (applyRule1 draws l p).1 := fun l p =>
    (applyRule1_evolves draws l p).mono (fun _ _ h => Or.inl h)
  have h2 : ∀ l p, Evolves (ruleRel draws) l (applyRule2 draws l p).1 := fun l p =>
    (applyRule2_evolves draws l p).mono (fun _ _ h => Or.inr (Or.inl h))
  have h3 : ∀ l p, Evolves (ruleRel draws) l (applyRule3 draws l p).1 := fun l p =>
    (applyRule3_evolves draws l p).mono (fun _ _ h => Or.inl h)
  have h4 : ∀ l, Evolves (ruleRel draws) l (applyRule4 l) := fun l =>
    (applyRule4_evolves l).mono (fun _ _ h => Or.inr (Or.inr (Or.inl h)))
  have h5 : ∀ l p, Evolves (ruleRel draws) l (applyRule5 draws l p).1 := fun l p =>
    (applyRule5_evolves draws l p).mono (fun _ _ h => Or.inr (Or.inr (Or.inr h)))
  have hmov : Evolves (ruleRel draws) st.1 (forLoop movs (movementBody draws) st).1 :=
    forLoop_inv (fun s : List Agent × Nat => Evolves (ruleRel draws) st.1 s.1)
      (movementBody draws) movs st (Evolves.refl _ _)
      (fun s _ _ hs => (hs.trans (h1 _ _)).trans (h2 _ _))
  unfold dailyCycle
  exact ((hmov.trans (h3 _ _)).trans (h4 _)).trans (h5 _ _)

theorem simulateDays_agents_succ (draws : Nat → Nat) (days movs k : Nat) (mem : List Agent)
    (pos : Nat) :
    (simulateDays draws days movs (k + 1) mem pos).agents
      = (dailyCycle draws movs ((simulateDays draws days movs k mem pos).agents,
          (simulateDays draws days movs k mem pos).pos)).1 := by
  rw [simulateDays_succ]; rfl

theorem simulateDays_pos_succ (draws : Nat → Nat) (days movs k : Nat) (mem : List Agent)
    (pos : Nat) :
    (simulateDays draws days movs (k + 1) mem pos).pos
      = (dailyCycle draws movs ((simulateDays draws days movs k mem pos).agents,
          (simulateDays draws days movs k mem pos).pos)).2 := by
  rw [simulateDays_succ]; rfl

theorem simulateDays_quarantine (draws : Nat → Nat) (days movs k : Nat) (mem : List Agent)
    (pos : Nat) :
    ∀ c ∈ (simulateDays draws days movs k mem pos).agents,
      c.status = -1 ∨ c.status = -2 → c.t_inc ≤ 0 := by
  induction k with
  | zero =>
    intro c hc hq
    have h0 : c.status = 0 := (initializeAgents_spec draws mem pos).2 c hc
    rcases hq with hq | hq <;> omega
  | succ k ih =>
    rw [simulateDays_agents_succ]
    exact (dailyCycle_evolves draws movs _).all
      (fun c => c.status = -1 ∨ c.status = -2 → c.t_inc ≤ 0) (ruleRel_quarantine draws) ih

/-- C19. The incubation counter is never restored: no rule pass (and no daily cycle)
increases `t_inc`; an agent that Rule 4 moves to Quarantined has `t_inc <= 0`, and in
every run every Quarantined or Deceased agent has `t_inc <= 0` while the counter never
grows from one day to the next; an agent that is Infected with `t_inc <= 0` is moved
to Quarantined by the very next `applyRule4`. -/
theorem incubation_never_restored (draws : Nat → Nat) (agents : List Agent) (pos i : Nat)
    (a : Agent) (hi : agents[i]? = some a) :
    (∃ b, (applyRule1 draws agents pos).1[i]? = some b ∧ b.t_inc ≤ a.t_inc) ∧
    (∃ b, (applyRule2 draws agents pos).1[i]? = some b ∧ b.t_inc ≤ a.t_inc) ∧
    (∃ b, (applyRule3 draws agents pos).1[i]? = some b ∧ b.t_inc ≤ a.t_inc) ∧
    (∃ b, (applyRule4 agents)[i]? = some b ∧ b.t_inc ≤ a.t_inc) ∧
    (∃ b, (applyRule5 draws agents pos).1[i]? = some b ∧ b.t_inc ≤ a.t_inc) ∧
    (∀ movs : Nat, ∃ b, (dailyCycle draws movs (agents, pos)).1[i]? = some b ∧
      b.t_inc ≤ a.t_inc) ∧
    (0 < a.status → ∀ b, (applyRule4 agents)[i]? = some b → b.status = -1 → b.t_inc ≤ 0) ∧
    (a.status = 1 → a.t_inc ≤ 0 →
      (applyRule4 agents)[i]? = some { a with t_inc := a.t_inc - 1, status := -1 }) ∧
    (∀ (mem : List Agent) (p0 days movs k : Nat),
      (∀ c ∈ (simulateDays draws days movs k mem p0).agents,
        c.status = -1 ∨ c.status = -2 → c.t_inc ≤ 0) ∧
      (∀ (j : Nat) (c : Agent), (simulateDays draws days movs k mem p0).agents[j]? = some c →
        ∃ c1, (simulateDays draws days movs (k + 1) mem p0).agents[j]? = some c1 ∧
          c1.t_inc ≤ c.t_inc)) := by
  have mono : ∀ {rel : Agent → Agent → Prop} {l l1 : List Agent} (j : Nat) (c : Agent),
      Evolves rel l l1 → (∀ x y, rel x y → ruleRel draws x y) → l[j]? = some c →
      ∃ b, l1[j]? = some b ∧ b.t_inc ≤ c.t_inc := by
    intro rel l l1 j c hev hsub hj
    exact (hev.mono hsub).pred (fun b => b.t_inc ≤ c.t_inc)
      (fun x y hxy hx => le_trans (ruleRel_t_inc draws x y hxy) hx) j c hj le_rfl
  refine ⟨mono i a (applyRule1_evolves _ _ _) (fun _ _ h => Or.inl h) hi,
    mono i a (applyRule2_evolves _ _ _) (fun _ _ h => Or.inr (Or.inl h)) hi,
    mono i a (applyRule3_evolves _ _ _) (fun _ _ h => Or.inl h) hi,
    mono i a (applyRule4_evolves _) (fun _ _ h => Or.inr (Or.inr (Or.inl h))) hi,
    mono i a (applyRule5_evolves _ _ _) (fun _ _ h => Or.inr (Or.inr (Or.inr h))) hi,
    fun movs => mono i a (dailyCycle_evolves draws movs (agents, pos)) (fun _ _ h => h) hi,
    ?_, ?_, ?_⟩
  · intro hs b hb hq
    rw [applyRule4_get agents i a hi] at hb
    have hb1 : b = progressAgent a := (Option.some.inj hb).symm
    rw [hb1] at hq ⊢
    simp only [progressAgent, hs, if_true] at hq ⊢
    split_ifs at hq ⊢ with h1
    · exact h1
    · dsimp only at hq; omega
  · intro hs ht
    have hpos : a.status > 0 := by rw [hs]; decide
    have h1 : a.t_inc - 1 ≤ 0 := by omega
    rw [applyRule4_get agents i a hi]
    simp only [progressAgent, hpos, if_true, h1]
  · intro mem p0 days movs k
    refine ⟨simulateDays_quarantine draws days movs k mem p0, fun j c hj => ?_⟩
    rw [simulateDays_agents_succ]
    exact mono j c (dailyCycle_evolves draws movs _) (fun _ _ h => h) hj

theorem incubation_never_restored_witness :
    [{ sampleAgent 1 0 0 with t_inc := 0 }][0]? = some { sampleAgent 1 0 0 with t_inc := 0 } ∧
    (applyRule4 [{ sampleAgent 1 0 0 with t_inc := 0 }])[0]?
      = some { ({ sampleAgent 1 0 0 with t_inc := 0 } : Agent) with
          t_inc := ({ sampleAgent 1 0 0 with t_inc := 0 } : Agent).t_inc - 1, status := -1 } :=
  ⟨rfl, (incubation_never_restored zeroDraws [{ sampleAgent 1 0 0 with t_inc := 0 }] 0 0
      { sampleAgent 1 0 0 with t_inc := 0 } rfl).2.2.2.2.2.2.2.1 rfl (by decide)⟩

/-! ## Exhaustive neighbour search -/

theorem exposedExhaustive_iff (a : Agent) (i : Nat) (agents : List Agent) :
    exposedExhaustive a i agents = true ↔
      ∃ (j : Nat) (c : Agent), agents[j]? = some c ∧ i ≠ j ∧ 0 < c.status ∧
        withinR a c = true := by
  unfold exposedExhaustive
  rw [List.any_eq_true]
  constructor
  · rintro ⟨j, _, hj⟩
    cases hc : agents[j]? with
    | none => simp [hc] at hj
    | some c =>
      simp only [hc, Bool.and_eq_true, decide_eq_true_eq] at hj
      exact ⟨j, c, hc, fun h => hj.1.1 h.symm, hj.1.2, hj.2⟩
  · rintro ⟨j, c, hc, hij, hs, hw⟩
    refine ⟨j, List.mem_range.mpr (List.getElem?_eq_some_iff.mp hc).1, ?_⟩
    simp only [hc, Bool.and_eq_true, decide_eq_true_eq]
    exact ⟨⟨fun h => hij h.symm, hs⟩, hw⟩

theorem scanNeighbours_iff_exposed (a : Agent) (i : Nat) (agents : List Agent) :
    scanNeighbours a i 0 agents = 1 ↔ exposedExhaustive a i agents = true := by
  rw [scanNeighbours_eq_one, exposedExhaustive_iff]
  simp only [Nat.zero_add]

theorem applyRule1ExhaustiveBody_eq (draws : Nat → Nat) :
    applyRule1ExhaustiveBody draws = applyRule1Body draws := by
  funext st i
  unfold applyRule1ExhaustiveBody applyRule1Body
  cases h : st.1[i]? with
  | none => rfl
  | some a =>
    dsimp only
    by_cases hs : a.status = 0
    · by_cases he : exposedExhaustive a i st.1 = true
      · have h1 : scanNeighbours a i 0 st.1 = 1 := (scanNeighbours_iff_exposed a i st.1).mpr he
        simp only [hs, if_true, he, h1]
      · have h1 : ¬ scanNeighbours a i 0 st.1 = 1 :=
          fun h1 => he ((scanNeighbours_iff_exposed a i st.1).mp h1)
        simp [hs, he, h1]
    · simp only [hs, if_false]

/-- C14. The short-circuit neighbour search of Rule 1 is outcome-equivalent to an
exhaustive one: for every scanning agent the loop with `break` sets `alpha` iff some
other agent with status `> 0` lies within distance `R`, and `applyRule1` returns the
same final population and the same generator cursor (the same draws consumed) as the
variant that examines all agents, for every population and draw sequence. -/
theorem rule1_short_circuit_equivalent (draws : Nat → Nat) (agents : List Agent) (pos : Nat) :
    (∀ (a : Agent) (i : Nat),
      (scanNeighbours a i 0 agents = 1 ↔ exposedExhaustive a i agents = true) ∧
      (scanNeighbours a i 0 agents = 1 ↔
        ∃ (j : Nat) (c : Agent), agents[j]? = some c ∧ i ≠ j ∧ 0 < c.status ∧
          withinR a c = true)) ∧
    applyRule1 draws agents pos = applyRule1Exhaustive draws agents pos := by
  refine ⟨fun a i => ⟨scanNeighbours_iff_exposed a i agents, ?_⟩, ?_⟩
  · rw [scanNeighbours_iff_exposed, exposedExhaustive_iff]
  · unfold applyRule1 applyRule1Exhaustive
    rw [applyRule1ExhaustiveBody_eq]

/-! ## The range of `randomFloat` -/

/-- C15 (amended). The function `randomFloat(min, max)` is not confined to the
half-open interval: for every generator output `r` with `0 <= r <= RAND_MAX`, the
value is at least `min` whenever `0 <= min < max`; for `min = 0` and `max > 0` (the
probability draws `randomFloat(0, 1)` and the position draws `randomFloat(0, P)`,
`randomFloat(0, Q)`) it lies in the closed interval `[0, max]` and it is `max` when
`r = RAND_MAX`; so a probability draw lies in `[0, 1]` and can be `1`. -/
theorem randomFloat_closed_interval (draws : Nat → Nat) (pos : Nat) (lo hi : ℚ)
    (hr : draws pos ≤ RAND_MAX) :
    (0 ≤ lo → lo < hi → lo ≤ (randomFloat draws lo hi pos).1) ∧
    (0 < hi → 0 ≤ (randomFloat draws 0 hi pos).1 ∧ (randomFloat draws 0 hi pos).1 ≤ hi ∧
      (draws pos = RAND_MAX → (randomFloat draws 0 hi pos).1 = hi)) ∧
    (0 ≤ (randomFloat draws 0 1 pos).1 ∧ (randomFloat draws 0 1 pos).1 ≤ 1 ∧
      (draws pos = RAND_MAX → (randomFloat draws 0 1 pos).1 = 1)) := by
  have hM := RAND_MAX_pos
  have hu0 : 0 ≤ (draws pos : ℚ) / (RAND_MAX : ℚ) := div_nonneg (Nat.cast_nonneg _) hM.le
  have hr1 : (draws pos : ℚ) ≤ (RAND_MAX : ℚ) := by exact_mod_cast hr
  have hu1 : (draws pos : ℚ) / (RAND_MAX : ℚ) ≤ 1 := (div_le_one hM).mpr hr1
  have hval : ∀ x y : ℚ, (randomFloat draws x y pos).1
      = x + (y - x) * ((draws pos : ℚ) / (RAND_MAX : ℚ)) := fun _ _ => rfl
  have hmax : draws pos = RAND_MAX → (draws pos : ℚ) / (RAND_MAX : ℚ) = 1 := by
    intro h
    rw [h]
    exact div_self (ne_of_gt hM)
  have hzero : ∀ y : ℚ, 0 < y → 0 ≤ (randomFloat draws 0 y pos).1 ∧
      (randomFloat draws 0 y pos).1 ≤ y ∧
      (draws pos = RAND_MAX → (randomFloat draws 0 y pos).1 = y) := by
    intro y hy
    rw [hval]
    refine ⟨by nlinarith, by nlinarith, fun h => ?_⟩
    rw [hmax h]
    ring
  refine ⟨fun _ hlt => ?_, hzero hi, hzero 1 (by norm_num)⟩
  rw [hval]
  have hd : 0 < hi - lo := by linarith
  nlinarith

theorem randomFloat_closed_interval_witness :
    zeroDraws 0 ≤ RAND_MAX ∧
    (0 : ℚ) ≤ (randomFloat zeroDraws 0 1 0).1 ∧ (randomFloat zeroDraws 0 1 0).1 ≤ 1 :=
  have h := randomFloat_closed_interval zeroDraws 0 0 1 (Nat.zero_le _)
  ⟨Nat.zero_le _, h.2.2.1, h.2.2.2.1⟩

/-- C15 (as stated) fails: when the generator returns `RAND_MAX`, the probability
draw `randomFloat(0, 1)` is exactly `1`, so it is not strictly below `max`. -/
theorem randomFloat_half_open_counterexample :
    (0 : ℚ) < 1 ∧ (fun _ : Nat => RAND_MAX) 0 ≤ RAND_MAX ∧
    (randomFloat (fun _ => RAND_MAX) 0 1 0).1 = 1 ∧
    ¬ (randomFloat (fun _ => RAND_MAX) 0 1 0).1 < 1 := by
  have hv : (randomFloat (fun _ => RAND_MAX) 0 1 0).1 = 1 := by
    norm_num [randomFloat, RAND_MAX]
  exact ⟨by norm_num, le_rfl, hv, by rw [hv]; norm_num⟩

/-! ## Initialisation postcondition -/

theorem initializeAgentsBody_eq (draws : Nat → Nat) (st : List Agent × Nat) (i : Nat) :
    initializeAgentsBody draws st i = (st.1.set i (freshAgent draws st.2), st.2 + 8) :=
  rfl

theorem initializeAgents_fresh (draws : Nat → Nat) (mem : List Agent) (pos : Nat) :
    ∀ a ∈ (initializeAgents draws mem pos).1, ∃ p, a = freshAgent draws p := by
  have key := forLoop_inv_idx
    (fun k (st : List Agent × Nat) => st.1.length = mem.length ∧
      ∀ (i : Nat) (a : Agent), i < k → st.1[i]? = some a → ∃ p, a = freshAgent draws p)
    (initializeAgentsBody draws) mem.length (mem, pos)
    ⟨rfl, fun i a hi _ => absurd hi (Nat.not_lt_zero i)⟩
    (by
      intro k st _ hst
      rw [initializeAgentsBody_eq]
      refine ⟨by simp [hst.1], fun i a hi ha => ?_⟩
      by_cases hik : i = k
      · subst hik
        have hlt : i < st.1.length := by
          have := (List.getElem?_eq_some_iff.mp ha).1
          simpa using this
        rw [List.getElem?_set_self hlt] at ha
        exact ⟨st.2, (Option.some.inj ha).symm⟩
      · have hlt : i < k := lt_of_le_of_ne (Nat.lt_succ_iff.mp hi) hik
        rw [List.getElem?_set_ne (Ne.symm hik)] at ha
        exact hst.2 i a hlt ha)
  intro a ha
  obtain ⟨i, hi⟩ := List.mem_iff_getElem?.mp ha
  have hlt : i < mem.length := key.1 ▸ (List.getElem?_eq_some_iff.mp hi).1
  exact key.2 i a hlt hi

theorem truncToInt_incubation (q : ℚ) (h5 : 5 ≤ q) (h7 : q ≤ f6_99) :
    truncToInt q = 5 ∨ truncToInt q = 6 := by
  have h0 : (0 : ℚ) ≤ q := by linarith
  have hlo : (5 : Int) ≤ ⌊q⌋ := Int.le_floor.mpr (by exact_mod_cast h5)
  have h99 : f6_99 < 7 := by norm_num [f6_99]
  have hhi : ⌊q⌋ < (7 : Int) := Int.floor_lt.mpr (by push_cast; linarith)
  simp only [truncToInt, h0, if_true]
  omega

theorem freshAgent_ranges (draws : Nat → Nat) (hd : UnitDraws draws) (p : Nat) :
    InitRanges (freshAgent draws p) := by
  have r1 := randomFloat_range draws hd f0_02 f0_03 (by norm_num [f0_02, f0_03]) p
  have r2 := randomFloat_range draws hd f0_02 f0_03 (by norm_num [f0_02, f0_03]) (p + 1)
  have r3 := randomFloat_range draws hd f0_007 f0_07 (by norm_num [f0_007, f0_07]) (p + 2)
  have r4 := randomFloat_range draws hd f0_3 f0_5 (by norm_num [f0_3, f0_5]) (p + 3)
  have r5 := randomFloat_range draws hd f0_7 f0_9 (by norm_num [f0_7, f0_9]) (p + 4)
  have r6 := randomFloat_range draws hd 5 f6_99 (by norm_num [f6_99]) (p + 5)
  have r7 := randomFloat_range draws hd 0 P (by norm_num [P]) (p + 6)
  have r8 := randomFloat_range draws hd 0 Q (by norm_num [Q]) (p + 7)
  exact ⟨rfl, rfl, truncToInt_incubation _ r6.1 r6.2, r1, r2, r3, r4, r5,
    r7.1, r7.2, r8.1, r8.2⟩

/-- C16 (amended). Initialisation postcondition: for every stream of unit-fraction
draws, after `initializeAgents` the population has the same size and every agent has
status `0`, `t_rec = 14`, `t_inc` in `{5, 6}`, `p_con` and `p_ext` in
`[0.02f, 0.03f]`, `p_fat` in `[0.007f, 0.07f]`, `p_mov` in `[0.3f, 0.5f]`, `p_smo` in
`[0.7f, 0.9f]`, the bounds being the `float` values of the literals the program
passes, and a position with `0 <= x <= P` and `0 <= y <= Q`, whatever the array
held before. -/
theorem initialization_postcondition (draws : Nat → Nat) (hd : UnitDraws draws)
    (mem : List Agent) (pos : Nat) :
    (initializeAgents draws mem pos).1.length = mem.length ∧
      ∀ a ∈ (initializeAgents draws mem pos).1, InitRanges a := by
  refine ⟨(initializeAgents_spec draws mem pos).1, fun a ha => ?_⟩
  obtain ⟨p, hp⟩ := initializeAgents_fresh draws mem pos a ha
  rw [hp]
  exact freshAgent_ranges draws hd p

theorem initialization_postcondition_witness :
    UnitDraws zeroDraws ∧
    (initializeAgents zeroDraws [sampleAgent (-2) 900 900, sampleAgent 1 0 0] 0).1.length = 2 ∧
    (∀ a ∈ (initializeAgents zeroDraws [sampleAgent (-2) 900 900, sampleAgent 1 0 0] 0).1,
      InitRanges a) :=
  have hd : UnitDraws zeroDraws := fun _ => Nat.zero_le _
  have h := initialization_postcondition zeroDraws hd
    [sampleAgent (-2) 900 900, sampleAgent 1 0 0] 0
  ⟨hd, h.1, h.2⟩

/-- C16 (as stated) fails: the bounds the program passes are `float` literals, not
the decimals.  When the generator returns `0` the agent written has
`p_con = p_ext = 0.02f < 0.02` and `p_smo = 0.7f < 0.7`; when it returns `RAND_MAX`
the agent written has `p_fat = 0.07f > 0.07`. -/
theorem initialization_decimal_counterexample :
    UnitDraws zeroDraws ∧ UnitDraws (fun _ => RAND_MAX) ∧
    (∃ a ∈ (initializeAgents zeroDraws [sampleAgent 0 0 0] 0).1,
      a.p_con < 2 / 100 ∧ a.p_ext < 2 / 100 ∧ a.p_smo < 7 / 10 ∧ ¬ InitRangesDecimal a) ∧
    (∃ a ∈ (initializeAgents (fun _ => RAND_MAX) [sampleAgent 0 0 0] 0).1,
      7 / 100 < a.p_fat ∧ ¬ InitRangesDecimal a) := by
  have h0 : (initializeAgents zeroDraws [sampleAgent 0 0 0] 0).1 = [homeAgent] := by
    norm_num [initializeAgents, forLoop, List.range, List.range.loop, initializeAgentsBody,
      randomFloat, zeroDraws, truncToInt, homeAgent, P, Q, RAND_MAX]
  have hM : ∃ a, (initializeAgents (fun _ => RAND_MAX) [sampleAgent 0 0 0] 0).1 = [a] ∧
      a.p_fat = f0_07 := by
    refine ⟨_, rfl, ?_⟩
    norm_num [initializeAgentsBody, randomFloat, RAND_MAX]
  refine ⟨fun _ => Nat.zero_le _, fun _ => le_rfl, ⟨homeAgent, by rw [h0]; simp, ?_⟩, ?_⟩
  · have h1 : homeAgent.p_con < 2 / 100 := by norm_num [homeAgent, f0_02]
    have h2 : homeAgent.p_ext < 2 / 100 := by norm_num [homeAgent, f0_02]
    have h3 : homeAgent.p_smo < 7 / 10 := by norm_num [homeAgent, f0_7]
    exact ⟨h1, h2, h3, fun h => absurd h.2.2.2.1.1 (not_le.mpr h1)⟩
  · obtain ⟨a, ha, hp⟩ := hM
    have h1 : (7 : ℚ) / 100 < a.p_fat := by rw [hp]; norm_num [f0_07]
    exact ⟨a, by rw [ha]; simp, h1, fun h => absurd h.2.2.2.2.2.1.2 (not_le.mpr h1)⟩

/-! ## Distance -/

theorem distanceSq_nonneg (a b : Agent) : 0 ≤ distanceSq a b := by
  simp only [distanceSq]
  nlinarith [mul_self_nonneg (a.x - b.x), mul_self_nonneg (a.y - b.y)]

theorem distanceSq_self (a : Agent) : distanceSq a a = 0 := by
  simp [distanceSq]

theorem rounding_zero (fl : ℚ → ℚ) (hodd : ∀ x, fl (-x) = -fl x) : fl 0 = 0 := by
  have h := hodd 0
  rw [neg_zero] at h
  linarith

theorem distance_comm (fl sqrtfl : ℚ → ℚ) (hodd : ∀ x, fl (-x) = -fl x) (a b : Agent) :
    distance fl sqrtfl a b = distance fl sqrtfl b a := by
  have hx : fl (b.x - a.x) = -fl (a.x - b.x) := by rw [← hodd]; congr 1; ring
  have hy : fl (b.y - a.y) = -fl (a.y - b.y) := by rw [← hodd]; congr 1; ring
  simp only [distance, hx, hy, neg_mul_neg]

theorem no_rational_root_of_two (q : ℚ) : q * q ≠ 2 := by
  intro h
  have h1 : (2 : ℝ) = ((|q| : ℚ) : ℝ) * ((|q| : ℚ) : ℝ) := by
    have : |q| * |q| = 2 := by rw [abs_mul_abs_self]; exact h
    exact_mod_cast this.symm
  have h2 : Real.sqrt 2 = ((|q| : ℚ) : ℝ) :=
    (Real.sqrt_eq_iff_mul_self_eq (by norm_num) (by exact_mod_cast abs_nonneg q)).mpr h1
  exact irrational_sqrt_two.ne_rat _ h2

/-- C17 (amended). The function `distance` is symmetric and pure, for every rounding
`fl` of the `float` operations that commutes with negation and keeps non-negative
numbers non-negative (as rounding to nearest does) and every `sqrtf` that is
non-negative on non-negative numbers and maps `0` to `0`: the returned value
`sqrtf(dx*dx + dy*dy)`, rounded after every operation, satisfies
`distance(a, b) = distance(b, a)`, is non-negative, is `0` for `distance(a, a)`, and
depends only on the two positions; the test `distance(a, b) <= R` is symmetric too;
and when no operation rounds, the radicand is `(a.x-b.x)^2 + (a.y-b.y)^2`. -/
theorem distance_symmetric_pure (fl sqrtfl : ℚ → ℚ) (hodd : ∀ x, fl (-x) = -fl x)
    (hpos : ∀ x, 0 ≤ x → 0 ≤ fl x) (hzero : sqrtfl 0 = 0)
    (hnonneg : ∀ x, 0 ≤ x → 0 ≤ sqrtfl x) (a b : Agent) :
    distance fl sqrtfl a b = distance fl sqrtfl b a ∧
    0 ≤ distance fl sqrtfl a b ∧
    distance fl sqrtfl a a = 0 ∧
    (∀ a1 b1 : Agent, a1.x = a.x → a1.y = a.y → b1.x = b.x → b1.y = b.y →
      distance fl sqrtfl a1 b1 = distance fl sqrtfl a b) ∧
    withinFloat fl sqrtfl a b = withinFloat fl sqrtfl b a ∧
    distance (fun x => x) sqrtfl a b = sqrtfl ((a.x - b.x) ^ 2 + (a.y - b.y) ^ 2) := by
  have h0 := rounding_zero fl hodd
  refine ⟨distance_comm fl sqrtfl hodd a b, ?_, ?_, ?_, ?_, ?_⟩
  · simp only [distance]
    apply hnonneg
    apply hpos
    exact add_nonneg (hpos _ (mul_self_nonneg _)) (hpos _ (mul_self_nonneg _))
  · simp only [distance, sub_self, h0, mul_zero, add_zero, hzero]
  · intro a1 b1 hax hay hbx hby
    simp only [distance, hax, hay, hbx, hby]
  · simp only [withinFloat, distance_comm fl sqrtfl hodd a b]
  · simp only [distance]
    congr 1
    ring

theorem distance_symmetric_pure_witness :
    (∀ x : ℚ, (fun y : ℚ => y) (-x) = -(fun y : ℚ => y) x) ∧
    (∀ x : ℚ, 0 ≤ x → 0 ≤ (fun y : ℚ => y) x) ∧ sqrtDown 0 = 0 ∧
    (∀ x : ℚ, 0 ≤ x → 0 ≤ sqrtDown x) ∧
    distance (fun y => y) sqrtDown (sampleAgent 0 0 0) (sampleAgent 1 3 4)
      = distance (fun y => y) sqrtDown (sampleAgent 1 3 4) (sampleAgent 0 0 0) ∧
    distance (fun y => y) sqrtDown (sampleAgent 0 0 0) (sampleAgent 0 0 0) = 0 :=
  have h1 : ∀ x : ℚ, (fun y : ℚ => y) (-x) = -(fun y : ℚ => y) x := fun _ => rfl
  have hp : ∀ x : ℚ, 0 ≤ x → 0 ≤ (fun y : ℚ => y) x := fun _ h => h
  have h2 : sqrtDown 0 = 0 := by simp [sqrtDown]
  have h3 : ∀ x : ℚ, 0 ≤ x → 0 ≤ sqrtDown x := fun x _ =>
    div_nonneg (Nat.cast_nonneg _) (Nat.cast_nonneg _)
  have h := distance_symmetric_pure (fun y => y) sqrtDown h1 hp h2 h3
    (sampleAgent 0 0 0) (sampleAgent 1 3 4)
  have hs := distance_symmetric_pure (fun y => y) sqrtDown h1 hp h2 h3
    (sampleAgent 0 0 0) (sampleAgent 0 0 0)
  ⟨h1, hp, h2, h3, h.1, hs.2.2.1⟩

/-- C17 (as stated) fails: the value `distance` returns is a `float`, hence a rational
number, and for agents at `(0, 0)` and `(1, 1)` the exact radicand
`(a.x-b.x)^2 + (a.y-b.y)^2` is `2`, which has no rational square root; so whatever the
rounding, the returned value is not `sqrt((a.x-b.x)^2 + (a.y-b.y)^2)`. -/
theorem distance_exact_root_counterexample :
    distanceSq (sampleAgent 0 0 0) (sampleAgent 0 1 1) = 2 ∧
    ¬ ∃ (fl sqrtfl : ℚ → ℚ),
      distance fl sqrtfl (sampleAgent 0 0 0) (sampleAgent 0 1 1)
          * distance fl sqrtfl (sampleAgent 0 0 0) (sampleAgent 0 1 1)
        = distanceSq (sampleAgent 0 0 0) (sampleAgent 0 1 1) := by
  have h2 : distanceSq (sampleAgent 0 0 0) (sampleAgent 0 1 1) = 2 := by
    norm_num [distanceSq, sampleAgent]
  refine ⟨h2, ?_⟩
  rintro ⟨fl, sqrtfl, h⟩
  rw [h2] at h
  exact no_rational_root_of_two _ h

/-! ## In-place updates of Rule 1 -/

theorem chain_in_place :
    applyRule1 zeroDraws [sampleAgent 1 0 0, sampleAgent 0 1 0, sampleAgent 0 2 0] 0
      = ([sampleAgent 1 0 0, sampleAgent 1 1 0, sampleAgent 1 2 0], 2) := by
  simp [applyRule1, forLoop, List.range, List.range.loop, applyRule1Body, scanNeighbours,
    withinR, distanceSq, randomFloat, zeroDraws, sampleAgent, R, RAND_MAX]
  norm_num

theorem chain_snapshot :
    applyRule1Snapshot zeroDraws [sampleAgent 1 0 0, sampleAgent 0 1 0, sampleAgent 0 2 0] 0
      = ([sampleAgent 1 0 0, sampleAgent 1 1 0, sampleAgent 0 2 0], 1) := by
  simp [applyRule1Snapshot, forLoop, List.range, List.range.loop, applyRule1SnapshotBody,
    scanNeighbours, withinR, distanceSq, randomFloat, zeroDraws, sampleAgent, R, RAND_MAX]
  norm_num

/-- C20. Rule 1 updates statuses in place in index order, so infections chain within
one pass: in the population below agent `1` becomes Infected during the pass and,
being the only infected agent within distance `R` of the Susceptible agent `2`, makes
agent `2` Infected in the same pass although no agent that was infected at the start
is within `R` of it; the variant that reads neighbour statuses from a snapshot taken
before the pass leaves agent `2` Susceptible, so the two passes differ. -/
theorem rule1_chains_within_pass :
    ∃ (agents : List Agent) (draws : Nat → Nat) (pos i j : Nat) (a b : Agent),
      i < j ∧ agents[i]? = some a ∧ agents[j]? = some b ∧ a.status = 0 ∧ b.status = 0 ∧
      (applyRule1 draws agents pos).1[i]? = some { a with status := 1 } ∧
      (applyRule1 draws agents pos).1[j]? = some { b with status := 1 } ∧
      withinR b a = true ∧
      (∀ (k : Nat) (c : Agent), agents[k]? = some c → 0 < c.status → withinR b c = false) ∧
      (applyRule1Snapshot draws agents pos).1[j]? = some b ∧
      (applyRule1 draws agents pos).1 ≠ (applyRule1Snapshot draws agents pos).1 ∧
      applyRule1 draws agents pos ≠ applyRule1Snapshot draws agents pos := by
  have hne : (applyRule1 zeroDraws
      [sampleAgent 1 0 0, sampleAgent 0 1 0, sampleAgent 0 2 0] 0).1
      ≠ (applyRule1Snapshot zeroDraws
        [sampleAgent 1 0 0, sampleAgent 0 1 0, sampleAgent 0 2 0] 0).1 := by
    rw [chain_in_place, chain_snapshot]
    intro h
    have h2 := congrArg (fun l : List Agent => l.map (fun c => c.status)) h
    simp [sampleAgent] at h2
  refine ⟨[sampleAgent 1 0 0, sampleAgent 0 1 0, sampleAgent 0 2 0], zeroDraws, 0, 1, 2,
    sampleAgent 0 1 0, sampleAgent 0 2 0, by decide, rfl, rfl, rfl, rfl, ?_, ?_, ?_, ?_, ?_,
    hne, fun h => hne (congrArg Prod.fst h)⟩
  · rw [chain_in_place]; rfl
  · rw [chain_in_place]; rfl
  · norm_num [withinR, distanceSq, sampleAgent, R]
  · intro k c hk hc
    match k, hk with
    | 0, hk =>
      have : c = sampleAgent 1 0 0 := by simpa using hk.symm
      subst this
      norm_num [withinR, distanceSq, sampleAgent, R]
    | 1, hk =>
      have : c = sampleAgent 0 1 0 := by simpa using hk.symm
      subst this
      exact absurd hc (by decide)
    | 2, hk =>
      have : c = sampleAgent 0 2 0 := by simpa using hk.symm
      subst this
      exact absurd hc (by decide)
    | k + 3, hk => simp at hk
  · rw [chain_snapshot]; rfl

/-! ## Recovered agents -/

/-- C13 fails on the code: an agent that returned to status `0` through the recovery
branch of `applyRule4` is infected again by the next `applyRule3` (external
contagion), and by `applyRule1` when an infected agent stands within `R`. -/
theorem recovered_agent_reinfected :
    ({ sampleAgent (-1) 0 0 with t_rec := 1 } : Agent).status = -1 ∧
    applyRule4 [{ sampleAgent (-1) 0 0 with t_rec := 1 }] = [sampleAgent 0 0 0] ∧
    (applyRule3 zeroDraws (applyRule4 [{ sampleAgent (-1) 0 0 with t_rec := 1 }]) 0).1
      = [sampleAgent 1 0 0] ∧
    (applyRule1 zeroDraws
        (applyRule4 [{ sampleAgent (-1) 0 0 with t_rec := 1 }] ++ [sampleAgent 1 0 0]) 0).1
      = [sampleAgent 1 0 0, sampleAgent 1 0 0] := by
  have h4 : applyRule4 [{ sampleAgent (-1) 0 0 with t_rec := 1 }] = [sampleAgent 0 0 0] := by
    rw [applyRule4_eq_map]
    simp [progressAgent, sampleAgent]
  refine ⟨rfl, h4, ?_, ?_⟩
  · rw [h4]
    simp [applyRule3, forLoop, List.range, List.range.loop, applyRule3Body, randomFloat,
      zeroDraws, sampleAgent, RAND_MAX]
  · rw [h4]
    simp [applyRule1, forLoop, List.range, List.range.loop, applyRule1Body, scanNeighbours,
      withinR, distanceSq, randomFloat, zeroDraws, sampleAgent, R, RAND_MAX]

/-! ## Passes with a known effect on every agent -/

theorem forLoop_map_cursor (body : List Agent × Nat → Nat → List Agent × Nat)
    (f : Agent → Agent) (c : Nat) (l : List Agent) (pos : Nat) (Good : Agent → Prop)
    (hgood : ∀ a ∈ l, Good a)
    (hbody : ∀ (st : List Agent × Nat) (i : Nat) (a : Agent), i < l.length →
      st.2 = pos + c * i → st.1[i]? = some a → Good a →
      body st i = (st.1.set i (f a), st.2 + c)) :
    forLoop l.length body (l, pos) = (l.map f, pos + c * l.length) := by
  have key := forLoop_inv_idx
    (fun k (st : List Agent × Nat) => st.1.length = l.length ∧ st.2 = pos + c * k ∧
      ∀ j : Nat, st.1[j]? = if j < k then l[j]?.map f else l[j]?)
    body l.length (l, pos) ⟨rfl, by simp, fun j => by simp⟩
    (by
      intro k st hk ⟨hlen, hcur, hget⟩
      have hka : st.1[k]? = some l[k] := by
        rw [hget k, if_neg (Nat.lt_irrefl k)]
        exact List.getElem?_eq_getElem hk
      rw [hbody st k l[k] hk hcur hka (hgood _ (List.getElem_mem hk))]
      refine ⟨by simp [hlen], by dsimp only; rw [hcur]; ring, fun j => ?_⟩
      dsimp only
      by_cases hjk : j = k
      · subst hjk
        rw [List.getElem?_set_self (by rw [hlen]; exact hk), if_pos (Nat.lt_succ_self j),
          List.getElem?_eq_getElem hk]
        rfl
      · rw [List.getElem?_set_ne (Ne.symm hjk), hget j]
        by_cases hlt : j < k
        · rw [if_pos hlt, if_pos (Nat.lt_succ_of_lt hlt)]
        · rw [if_neg hlt, if_neg (by omega)])
  obtain ⟨hlen, hcur, hget⟩ := key
  apply Prod.ext
  · apply List.ext_getElem?
    intro j
    show (forLoop l.length body (l, pos)).1[j]? = (l.map f)[j]?
    rw [hget j, List.getElem?_map]
    by_cases hj : j < l.length
    · rw [if_pos hj]
    · rw [if_neg hj, List.getElem?_eq_none (Nat.le_of_not_lt hj)]
      rfl
  · exact hcur

theorem forLoop_same_list (body : List Agent × Nat → Nat → List Agent × Nat)
    (l : List Agent) (pos n : Nat) (Cur : Nat → Prop) (h0 : Cur pos)
    (hbody : ∀ (p i : Nat), Cur p → (body (l, p) i).1 = l ∧ Cur (body (l, p) i).2) :
    (forLoop n body (l, pos)).1 = l ∧ Cur (forLoop n body (l, pos)).2 := by
  apply forLoop_inv (fun st : List Agent × Nat => st.1 = l ∧ Cur st.2) body n (l, pos) ⟨rfl, h0⟩
  intro st i _ ⟨h1, h2⟩
  have hst : st = (l, st.2) := Prod.ext h1 rfl
  rw [hst]
  exact hbody st.2 i h2

theorem applyRule1_calm (draws : Nat → Nat) (l : List Agent) (pos : Nat)
    (h : (∀ a ∈ l, a.status ≠ 0) ∨ (∀ a ∈ l, ¬ 0 < a.status)) :
    applyRule1 draws l pos = (l, pos) := by
  unfold applyRule1
  apply forLoop_inv (fun st : List Agent × Nat => st = (l, pos)) _ _ _ rfl
  intro st i _ hst
  rw [hst]
  unfold applyRule1Body
  cases hi : l[i]? with
  | none => simp [hi]
  | some a =>
    have hmem : a ∈ l := List.mem_iff_getElem?.mpr ⟨i, hi⟩
    by_cases hs : a.status = 0
    · rcases h with h | h
      · exact absurd hs (h a hmem)
      · have hscan : ¬ scanNeighbours a i 0 l = 1 := by
          intro h1
          obtain ⟨j, c, hj, _, hc, _⟩ := (scanNeighbours_eq_one a i l 0).mp h1
          exact h c (List.mem_iff_getElem?.mpr ⟨j, hj⟩) hc
        simp [hi, hs, hscan]
    · simp [hi, hs]

theorem applyRule5_idle (draws : Nat → Nat) (l : List Agent) (pos : Nat)
    (h : ∀ a ∈ l, a.status ≠ -1) : applyRule5 draws l pos = (l, pos) := by
  unfold applyRule5
  apply forLoop_inv (fun st : List Agent × Nat => st = (l, pos)) _ _ _ rfl
  intro st i _ hst
  rw [hst]
  unfold applyRule5Body
  cases hi : l[i]? with
  | none => simp [hi]
  | some a =>
    have hs : ¬ a.status = -1 := h a (List.mem_iff_getElem?.mpr ⟨i, hi⟩)
    simp [hi, hs]

theorem randomFloat_at_zero (draws : Nat → Nat) (lo hi : ℚ) (pos : Nat) (h : draws pos = 0) :
    randomFloat draws lo hi pos = (lo, pos + 1) := by
  simp [randomFloat, h]

theorem randomFloat_at_max (draws : Nat → Nat) (pos : Nat) (h : draws pos = RAND_MAX) :
    randomFloat draws 0 1 pos = (1, pos + 1) := by
  have hM : (RAND_MAX : ℚ) ≠ 0 := ne_of_gt RAND_MAX_pos
  simp [randomFloat, h, div_self hM]

theorem initializeAgents_zero (draws : Nat → Nat) (mem : List Agent) (pos : Nat)
    (hz : ZeroOn draws pos (pos + 8 * mem.length)) :
    initializeAgents draws mem pos
      = (List.replicate mem.length homeAgent, pos + 8 * mem.length) := by
  unfold initializeAgents
  rw [forLoop_map_cursor (initializeAgentsBody draws) (fun _ => homeAgent) 8 mem pos
    (fun _ => True) (fun _ _ => trivial)]
  · rw [List.map_const']
  · intro st i a hi hcur _ _
    rw [initializeAgentsBody_eq]
    have hz0 : ∀ j, j < 8 → draws (st.2 + j) = 0 := fun j hj =>
      hz (st.2 + j) (by omega) (by omega)
    have hfresh : freshAgent draws st.2 = homeAgent := by
      have e0 := hz0 0 (by decide)
      simp only [Nat.add_zero] at e0
      simp only [freshAgent, homeAgent, randomFloat_at_zero draws _ _ _ e0,
        randomFloat_at_zero draws _ _ _ (hz0 1 (by decide)),
        randomFloat_at_zero draws _ _ _ (hz0 2 (by decide)),
        randomFloat_at_zero draws _ _ _ (hz0 3 (by decide)),
        randomFloat_at_zero draws _ _ _ (hz0 4 (by decide)),
        randomFloat_at_zero draws _ _ _ (hz0 5 (by decide)),
        randomFloat_at_zero draws _ _ _ (hz0 6 (by decide)),
        randomFloat_at_zero draws _ _ _ (hz0 7 (by decide))]
      norm_num [truncToInt]
    rw [hfresh]

theorem applyRule2_zero (draws : Nat → Nat) (l : List Agent) (pos : Nat)
    (hz : ZeroOn draws pos (pos + 4 * l.length))
    (hl : ∀ a ∈ l, a.status ≠ -2 ∧ 0 ≤ a.p_mov ∧ 0 ≤ a.p_smo ∧ a.x = 0 ∧ a.y = 0) :
    applyRule2 draws l pos = (l, pos + 4 * l.length) := by
  unfold applyRule2
  rw [forLoop_map_cursor (applyRule2Body draws) id 4 l pos
    (fun a => a.status ≠ -2 ∧ 0 ≤ a.p_mov ∧ 0 ≤ a.p_smo ∧ a.x = 0 ∧ a.y = 0) hl]
  · rw [List.map_id]
  · intro st i a hi hcur ha ⟨hs, hm, hsm, hx, hy⟩
    have hz0 : ∀ j, j < 4 → draws (st.2 + j) = 0 := fun j hj =>
      hz (st.2 + j) (by omega) (by omega)
    have e0 := hz0 0 (by decide)
    simp only [Nat.add_zero] at e0
    have h1 : max (0 : ℚ) (min P (a.x + (2 * 0 - 1) * L_MAX)) = a.x := by
      rw [hx]; norm_num [P, L_MAX]
    have h2 : max (0 : ℚ) (min Q (a.y + (2 * 0 - 1) * L_MAX)) = a.y := by
      rw [hy]; norm_num [Q, L_MAX]
    simp only [applyRule2Body, ha, hs, if_false, randomFloat_at_zero draws _ _ _ e0,
      randomFloat_at_zero draws _ _ _ (hz0 1 (by decide)),
      randomFloat_at_zero draws _ _ _ (hz0 2 (by decide)),
      randomFloat_at_zero draws _ _ _ (hz0 3 (by decide)), hm, hsm, if_true, h1, h2, id]

theorem applyRule3_zero (draws : Nat → Nat) (l : List Agent) (pos : Nat)
    (hz : ZeroOn draws pos (pos + 1 * l.length))
    (hl : ∀ a ∈ l, a.status = 0 ∧ 0 ≤ a.p_ext) :
    applyRule3 draws l pos
      = (l.map (fun a => { a with status := 1 }), pos + 1 * l.length) := by
  unfold applyRule3
  apply forLoop_map_cursor (applyRule3Body draws) (fun a => { a with status := 1 }) 1 l pos
    (fun a => a.status = 0 ∧ 0 ≤ a.p_ext) hl
  intro st i a hi hcur ha ⟨hs, hp⟩
  have e0 : draws st.2 = 0 := hz st.2 (by omega) (by omega)
  simp only [applyRule3Body, ha, hs, if_true, randomFloat_at_zero draws _ _ _ e0, hp]

theorem applyRule2_quiet (draws : Nat → Nat) (l : List Agent) (pos : Nat)
    (hq : MaxFrom draws pos) (hl : ∀ a ∈ l, Stubborn a) :
    (applyRule2 draws l pos).1 = l ∧ pos ≤ (applyRule2 draws l pos).2 := by
  unfold applyRule2
  apply forLoop_same_list (applyRule2Body draws) l pos l.length (fun p => pos ≤ p) le_rfl
  intro p i hp
  unfold applyRule2Body
  cases hi : l[i]? with
  | none => exact ⟨by simp [hi], by simpa [hi] using hp⟩
  | some a =>
    have hm : ¬ (1 : ℚ) ≤ a.p_mov := not_le.mpr (hl a (List.mem_iff_getElem?.mpr ⟨i, hi⟩)).1
    by_cases hs : a.status = -2
    · exact ⟨by simp [hi, hs], by simpa [hi, hs] using hp⟩
    · simp only [hi, hs, if_false, randomFloat_at_max draws p (hq p hp), hm]
      exact ⟨trivial, Nat.le_succ_of_le hp⟩

theorem applyRule3_quiet (draws : Nat → Nat) (l : List Agent) (pos : Nat)
    (hq : MaxFrom draws pos) (hl : ∀ a ∈ l, Stubborn a) :
    (applyRule3 draws l pos).1 = l ∧ pos ≤ (applyRule3 draws l pos).2 := by
  unfold applyRule3
  apply forLoop_same_list (applyRule3Body draws) l pos l.length (fun p => pos ≤ p) le_rfl
  intro p i hp
  unfold applyRule3Body
  cases hi : l[i]? with
  | none => exact ⟨by simp [hi], by simpa [hi] using hp⟩
  | some a =>
    have hm : ¬ (1 : ℚ) ≤ a.p_ext :=
      not_le.mpr (hl a (List.mem_iff_getElem?.mpr ⟨i, hi⟩)).2.1
    by_cases hs : a.status = 0
    · simp only [hi, hs, if_true, randomFloat_at_max draws p (hq p hp), hm, if_false]
      exact ⟨trivial, Nat.le_succ_of_le hp⟩
    · exact ⟨by simp [hi, hs], by simpa [hi, hs] using hp⟩

theorem applyRule5_quiet (draws : Nat → Nat) (l : List Agent) (pos : Nat)
    (hq : MaxFrom draws pos) (hl : ∀ a ∈ l, Stubborn a) :
    (applyRule5 draws l pos).1 = l ∧ pos ≤ (applyRule5 draws l pos).2 := by
  unfold applyRule5
  apply forLoop_same_list (applyRule5Body draws) l pos l.length (fun p => pos ≤ p) le_rfl
  intro p i hp
  unfold applyRule5Body
  cases hi : l[i]? with
  | none => exact ⟨by simp [hi], by simpa [hi] using hp⟩
  | some a =>
    have hm : ¬ (1 : ℚ) ≤ a.p_fat :=
      not_le.mpr (hl a (List.mem_iff_getElem?.mpr ⟨i, hi⟩)).2.2
    by_cases hs : a.status = -1
    · simp only [hi, hs, if_true, randomFloat_at_max draws p (hq p hp), hm, if_false]
      exact ⟨trivial, Nat.le_succ_of_le hp⟩
    · exact ⟨by simp [hi, hs], by simpa [hi, hs] using hp⟩

theorem progressAgent_params (a : Agent) :
    (progressAgent a).p_mov = a.p_mov ∧ (progressAgent a).p_ext = a.p_ext ∧
      (progressAgent a).p_fat = a.p_fat := by
  unfold progressAgent
  dsimp only
  split_ifs <;> exact ⟨rfl, rfl, rfl⟩

theorem progressAgent_stubborn (a : Agent) (h : Stubborn a) : Stubborn (progressAgent a) := by
  obtain ⟨h1, h2, h3⟩ := progressAgent_params a
  unfold Stubborn
  rw [h1, h2, h3]
  exact h

theorem progressAgent_iterate_stubborn (a : Agent) (h : Stubborn a) (m : Nat) :
    Stubborn (progressAgent^[m] a) := by
  induction m with
  | zero => exact h
  | succ m ih =>
    rw [Function.iterate_succ_apply']
    exact progressAgent_stubborn _ ih

theorem maxFrom_of_le {draws : Nat → Nat} {lo hi : Nat} (h : MaxFrom draws lo) (hle : lo ≤ hi) :
    MaxFrom draws hi :=
  fun k hk => h k (le_trans hle hk)

/-- A day on which every draw is `1.0`: only Rule 4 changes the population. -/
theorem dailyCycle_quiet (draws : Nat → Nat) (movs : Nat) (l : List Agent) (pos : Nat)
    (hq : MaxFrom draws pos) (hl : ∀ a ∈ l, Stubborn a)
    (hc : (∀ a ∈ l, a.status ≠ 0) ∨ (∀ a ∈ l, ¬ 0 < a.status)) :
    (dailyCycle draws movs (l, pos)).1 = l.map progressAgent ∧
      pos ≤ (dailyCycle draws movs (l, pos)).2 := by
  have hmov := forLoop_same_list (movementBody draws) l pos movs (fun p => pos ≤ p) le_rfl
    (by
      intro p i hp
      unfold movementBody
      rw [applyRule1_calm draws l p hc]
      have h2 := applyRule2_quiet draws l p (maxFrom_of_le hq hp) hl
      exact ⟨h2.1, le_trans hp h2.2⟩)
  obtain ⟨hm1, hm2⟩ := hmov
  unfold dailyCycle
  dsimp only
  generalize forLoop movs (movementBody draws) (l, pos) = S at hm1 hm2
  obtain ⟨l1, p1⟩ := S
  dsimp only at hm1 hm2 ⊢
  subst hm1
  have h3 := applyRule3_quiet draws l1 p1 (maxFrom_of_le hq hm2) hl
  generalize applyRule3 draws l1 p1 = S3 at h3
  obtain ⟨l3, p3⟩ := S3
  dsimp only at h3 ⊢
  obtain ⟨h3a, h3b⟩ := h3
  subst h3a
  rw [applyRule4_eq_map]
  have hl4 : ∀ a ∈ l3.map progressAgent, Stubborn a := by
    intro a ha
    obtain ⟨b, hb, rfl⟩ := List.mem_map.mp ha
    exact progressAgent_stubborn b (hl b hb)
  have h5 := applyRule5_quiet draws (l3.map progressAgent) p3
    (maxFrom_of_le hq (le_trans hm2 h3b)) hl4
  exact ⟨h5.1, le_trans (le_trans hm2 h3b) h5.2⟩

/-! ## The wave run -/

theorem waveDraws_zeroOn (n lo hi : Nat) (h : hi ≤ 49 * n) : ZeroOn (waveDraws n) lo hi := by
  intro k _ hk
  have : k < 49 * n := by omega
  simp [waveDraws, this]

theorem waveDraws_maxFrom (n : Nat) : MaxFrom (waveDraws n) (49 * n) := by
  intro k hk
  have : ¬ k < 49 * n := by omega
  simp [waveDraws, this]

theorem waveDraws_unit (n : Nat) : UnitDraws (waveDraws n) := by
  intro k
  unfold waveDraws
  split_ifs
  · exact Nat.zero_le _
  · exact le_rfl

theorem waveAgent_succ (k : Nat) : waveAgent (k + 1) = progressAgent (waveAgent k) := by
  unfold waveAgent
  rw [Function.iterate_succ_apply']

theorem waveAgent_stubborn (k : Nat) : Stubborn (waveAgent k) := by
  apply progressAgent_iterate_stubborn
  norm_num [Stubborn, homeAgent, f0_3, f0_02, f0_007]

theorem waveAgent_one : waveAgent 1 = { homeAgent with status := 1, t_inc := 4 } := by
  simp [waveAgent, progressAgent, homeAgent]

theorem wave_movements (n m : Nat) (hm : m ≤ 10) :
    forLoop m (movementBody (waveDraws n)) (List.replicate n homeAgent, 8 * n)
      = (List.replicate n homeAgent, 8 * n + 4 * n * m) := by
  apply forLoop_inv_idx
    (fun k (st : List Agent × Nat) => k ≤ 10 → st = (List.replicate n homeAgent, 8 * n + 4 * n * k))
    (movementBody (waveDraws n)) m _ (fun _ => by simp) _ hm
  intro k st hk hst hk1
  rw [hst (by omega)]
  unfold movementBody
  dsimp only
  have hcalm : (∀ a ∈ List.replicate n homeAgent, a.status ≠ 0) ∨
      (∀ a ∈ List.replicate n homeAgent, ¬ 0 < a.status) := by
    right
    intro a ha
    rw [List.eq_of_mem_replicate ha]
    decide
  rw [applyRule1_calm _ _ _ hcalm]
  dsimp only
  have hz : ZeroOn (waveDraws n) (8 * n + 4 * n * k)
      (8 * n + 4 * n * k + 4 * (List.replicate n homeAgent).length) := by
    apply waveDraws_zeroOn
    rw [List.length_replicate]
    nlinarith
  rw [applyRule2_zero _ _ _ hz]
  · rw [List.length_replicate]
    congr 1
    ring
  · intro a ha
    rw [List.eq_of_mem_replicate ha]
    norm_num [homeAgent, f0_3, f0_7, f0_02]

theorem wave_day0 (n : Nat) :
    dailyCycle (waveDraws n) M_MAX (List.replicate n homeAgent, 8 * n)
      = (List.replicate n (waveAgent 1), 49 * n) := by
  unfold dailyCycle
  dsimp only
  rw [show M_MAX = 10 from rfl, wave_movements n 10 le_rfl]
  dsimp only
  have hz : ZeroOn (waveDraws n) (8 * n + 4 * n * 10)
      (8 * n + 4 * n * 10 + 1 * (List.replicate n homeAgent).length) := by
    apply waveDraws_zeroOn
    rw [List.length_replicate]
    omega
  rw [applyRule3_zero _ _ _ hz]
  · dsimp only
    rw [applyRule4_eq_map, List.map_replicate, List.map_replicate, List.length_replicate]
    have hw : progressAgent { homeAgent with status := 1 } = waveAgent 1 := rfl
    rw [hw, applyRule5_idle]
    · congr 1
      omega
    · intro a ha
      rw [List.eq_of_mem_replicate ha, waveAgent_one]
      decide
  · intro a ha
    rw [List.eq_of_mem_replicate ha]
    norm_num [homeAgent, f0_3, f0_7, f0_02]

theorem calm_replicate (n : Nat) (a : Agent) :
    (∀ b ∈ List.replicate n a, b.status ≠ 0) ∨ (∀ b ∈ List.replicate n a, ¬ 0 < b.status) := by
  by_cases h : a.status = 0
  · right
    intro b hb
    rw [List.eq_of_mem_replicate hb, h]
    decide
  · left
    intro b hb
    rw [List.eq_of_mem_replicate hb]
    exact h

/-- The population of the wave run after day `d`: every agent is `waveAgent (d + 1)`. -/
theorem wave_agents (mem : List Agent) (days d : Nat) :
    (simulateDays (waveDraws mem.length) days M_MAX (d + 1) mem 0).agents
      = List.replicate mem.length (waveAgent (d + 1)) ∧
    49 * mem.length ≤ (simulateDays (waveDraws mem.length) days M_MAX (d + 1) mem 0).pos := by
  induction d with
  | zero =>
    have hinit := initializeAgents_zero (waveDraws mem.length) mem 0
      (waveDraws_zeroOn _ _ _ (by omega))
    have h0 : (simulateDays (waveDraws mem.length) days M_MAX 0 mem 0).agents
        = List.replicate mem.length homeAgent := by
      simp [simulateDays, forLoop_zero, startSim, hinit]
    have h1 : (simulateDays (waveDraws mem.length) days M_MAX 0 mem 0).pos = 8 * mem.length := by
      simp [simulateDays, forLoop_zero, startSim, hinit]
    rw [simulateDays_agents_succ, simulateDays_pos_succ, h0, h1, wave_day0]
    exact ⟨rfl, le_rfl⟩
  | succ d ih =>
    obtain ⟨ha, hp⟩ := ih
    have hq := dailyCycle_quiet (waveDraws mem.length) M_MAX
      (List.replicate mem.length (waveAgent (d + 1)))
      (simulateDays (waveDraws mem.length) days M_MAX (d + 1) mem 0).pos
      (maxFrom_of_le (waveDraws_maxFrom mem.length) hp)
      (fun a ha => by rw [List.eq_of_mem_replicate ha]; exact waveAgent_stubborn _)
      (calm_replicate _ _)
    rw [simulateDays_agents_succ _ _ _ (d + 1), simulateDays_pos_succ _ _ _ (d + 1), ha]
    refine ⟨?_, le_trans hp hq.2⟩
    rw [hq.1, List.map_replicate, ← waveAgent_succ]

theorem waveAgent_five : waveAgent 5 = { homeAgent with status := -1, t_inc := 0 } := by
  unfold waveAgent
  rw [progressAgent_quarantined_at { homeAgent with status := 1 } 4 (by decide) rfl]

theorem waveAgent_status_day17 : (waveAgent 18).status = -1 := by
  have h : waveAgent 18 = progressAgent^[13] (waveAgent 5) := by
    unfold waveAgent
    rw [← Function.iterate_add_apply]
  rw [h, waveAgent_five, progressAgent_recovering _ 13 rfl (by decide)]

theorem waveAgent_status_day18 : (waveAgent 19).status = 0 := by
  have h : waveAgent 19 = progressAgent^[13 + 1] (waveAgent 5) := by
    unfold waveAgent
    rw [← Function.iterate_add_apply]
  rw [h, waveAgent_five, progressAgent_recovered_at _ 13 rfl rfl]

theorem count_fold_replicate_quarantined (n : Nat) (a : Agent) (h : a.status = -1)
    (c : Counts) :
    (List.replicate n a).foldl countAgentsBody c
      = { c with quarantined := c.quarantined + (n : Int) } := by
  induction n generalizing c with
  | zero => simp
  | succ n ih =>
    have h1 : ¬ a.status = 1 := by rw [h]; decide
    rw [List.replicate_succ, List.foldl_cons, ih]
    simp only [countAgentsBody, h1, if_false, h, if_true]
    congr 1
    push_cast
    ring

theorem count_fold_replicate_susceptible (n : Nat) (a : Agent) (h : a.status = 0)
    (c : Counts) : (List.replicate n a).foldl countAgentsBody c = c := by
  induction n generalizing c with
  | zero => simp
  | succ n ih =>
    have h1 : ¬ a.status = 1 := by rw [h]; decide
    have h2 : ¬ a.status = -1 := by rw [h]; decide
    have h3 : ¬ a.status = -2 := by rw [h]; decide
    rw [List.replicate_succ, List.foldl_cons, ih]
    simp only [countAgentsBody, h1, h2, h3, if_false]

theorem wave_counts (mem : List Agent) :
    everInfected (dayCounts (waveDraws mem.length) D_MAX M_MAX mem 0) 17 = (mem.length : Int) ∧
    everInfected (dayCounts (waveDraws mem.length) D_MAX M_MAX mem 0) 18 = 0 := by
  unfold everInfected dayCounts
  rw [(wave_agents mem D_MAX 17).1, (wave_agents mem D_MAX 18).1]
  unfold countAgentsByStatus
  rw [count_fold_replicate_quarantined _ _ waveAgent_status_day17,
    count_fold_replicate_susceptible _ _ waveAgent_status_day18]
  simp

/-- The statistics of the wave run: every agent recovers on day index `18`, and the
cumulative infected count falls from the population size to `0`. -/
theorem wave_stats (mem : List Agent) :
    (runSimulation (waveDraws mem.length) mem 0).stats.cumulative_infected[17]?
      = some (mem.length : Int) ∧
    (runSimulation (waveDraws mem.length) mem 0).stats.cumulative_infected[18]? = some 0 ∧
    (runSimulation (waveDraws mem.length) mem 0).stats.daily_infected[18]?
      = some (-(mem.length : Int)) := by
  obtain ⟨h1, _, _, h4, _, _, _, _, _⟩ :=
    statsAfter_closed mem.length D_MAX (dayCounts (waveDraws mem.length) D_MAX M_MAX mem 0) D_MAX
  obtain ⟨c17, c18⟩ := wave_counts mem
  have d17 : 17 < D_MAX := by decide
  have d18 : 18 < D_MAX := by decide
  rw [runSimulation_stats, h1, h4, seriesOf_get, seriesOf_get, seriesOf_get]
  simp only [d17, d18, if_true, c17, c18, prevOf]
  simp [c17]

/-- C11 fails on the code: in the run of `N = 1024` agents whose generator returns `0`
for its first `49 * 1024` calls and `RAND_MAX` afterwards, all agents are infected on
day index `0`, quarantined on day `4` and recover on day `18`; `cumulative_infected`
falls from `1024` on day `17` to `0` on day `18` and `daily_infected[18]` is `-1024`. -/
theorem cumulative_infected_decreases :
    UnitDraws (waveDraws 1024) ∧
    (runSimulation (waveDraws 1024)
      (List.replicate 1024 (sampleAgent 0 0 0)) 0).stats.cumulative_infected[17]? = some 1024 ∧
    (runSimulation (waveDraws 1024)
      (List.replicate 1024 (sampleAgent 0 0 0)) 0).stats.cumulative_infected[18]? = some 0 ∧
    (runSimulation (waveDraws 1024)
      (List.replicate 1024 (sampleAgent 0 0 0)) 0).stats.daily_infected[18]? = some (-1024) := by
  have h := wave_stats (List.replicate 1024 (sampleAgent 0 0 0))
  rw [List.length_replicate] at h
  exact ⟨waveDraws_unit 1024, by exact_mod_cast h.1, h.2.1, by exact_mod_cast h.2.2⟩

end Epidemic
